import Mathlib

/-!
# Verification of the super-ralph orchestration core

A shallow embedding, in Lean 4, of the parts of the `super-ralph` TypeScript
repository that the specification's claims are about:

* the output-store / context accessor model (`OutputRow`, `Ctx`, `latestRow`,
  `outputMaybeRow`, `outputsAsc`) following the repository's documented
  accessor semantics (exact lookups are iteration-scoped, `latest` is the
  cross-iteration maximum, `outputs` is the iteration-ascending scan of a
  table);
* the selectors of `src/selectors.ts` (`normalizeTicket`, `selectLand`,
  `isTicketTierComplete`, `selectDiscoverTickets`, ...);
* the merge-queue candidate computation of `SuperRalph.tsx` and
  `AgenticMergeQueue.tsx`;
* the scheduler-bridge completion check of `TicketScheduler.tsx`
  (`isJobComplete`, `JOB_TYPE_TO_OUTPUT_KEY`);
* the speculative merge-queue coordinator of `speculativeMergeQueue.ts`
  (`upsertEntry`, `resolveEntry`, `getOrderedPendingEntries`, `landPrefix`,
  `evictEntry`, and one iteration of `processLoop`).

External effects (jj subprocess calls, the review agent) are abstracted as a
record of deterministic outcomes (`MergeQueueOps`), and each coordinator step
additionally returns the list of operations it issued (`MqOp`), so that
claims about which VCS operations run, and in which situations, are statable.
-/

/-- Closed priority enumeration of the schema catalog
(`critical | high | medium | low`). -/
inductive Priority where
  | critical
  | high
  | medium
  | low
deriving Repr, DecidableEq

/-- Closed complexity-tier enumeration (`trivial | small | medium | large`),
from `schemas.ts`. -/
inductive ComplexityTier where
  | trivial
  | small
  | medium
  | large
deriving Repr, DecidableEq

/-- `COMPLEXITY_TIERS` of `schemas.ts`: the ordered stage pipeline of each tier. -/
def getTierStages : ComplexityTier → List String
  | .trivial => ["implement", "build-verify"]
  | .small => ["implement", "test", "build-verify"]
  | .medium => ["research", "plan", "implement", "test", "build-verify", "code-review"]
  | .large => ["research", "plan", "implement", "test", "build-verify",
      "spec-review", "code-review", "review-fix", "report"]

/-- `getTierFinalStage` of `schemas.ts`: the last stage of the tier's pipeline
(`stages[stages.length - 1]`). -/
def getTierFinalStage (tier : ComplexityTier) : String :=
  ((getTierStages tier).getLast?).getD ""

/-- An entry of `ticketsLanded` in a `merge_queue_result` row
(`mergeQueueResultSchema` of `AgenticMergeQueue.tsx`). -/
structure MqLanded where
  ticketId : String
  mergeCommit : Option String
  summary : String
deriving Repr, DecidableEq

/-- An entry of `ticketsEvicted` in a `merge_queue_result` row. -/
structure MqEvicted where
  ticketId : String
  reason : String
  details : String
deriving Repr, DecidableEq

/-- The payload of a `merge_queue_result` output row (the fields the selectors
read; `ticketsSkipped`, `summary` and `nextActions` are never consulted by the
embedded code). -/
structure MergeQueueResultRow where
  ticketsLanded : List MqLanded
  ticketsEvicted : List MqEvicted
deriving Repr, DecidableEq

/-- The landing state returned by `selectLand` in `selectors.ts`: either a
direct `land` row payload (all fields present, absent optional fields are
`none` / `false`), or a record synthesized from a `merge_queue_result` entry. -/
structure LandSel where
  merged : Bool
  mergeCommit : Option String
  ciPassed : Bool
  summary : String
  evicted : Bool
  evictionReason : Option String
  evictionDetails : Option String
  attemptedLog : Option String
  attemptedDiffSummary : Option String
  landedOnMainSinceBranch : Option String
deriving Repr, DecidableEq

/-- The payload of an `implement` output row (fields read by `selectImplement`). -/
structure ImplementRow where
  whatWasDone : String
  filesCreated : Option (List String)
  filesModified : Option (List String)
  nextSteps : Option String
deriving Repr, DecidableEq

/-- The value of one field of an untyped candidate object inside a `discover`
row's `tickets` array: absent, a string, an array (already stringified by
`String(v)`), or a value of some other runtime type. -/
inductive RawField where
  | absent
  | str (s : String)
  | list (xs : List String)
  | other
deriving Repr, DecidableEq

/-- An untyped candidate inside a `discover` row's `tickets` array: either not
an object at all (`null`, a number, ...) or an object with untyped fields. -/
inductive RawCandidate where
  | notObject
  | obj (id title description category priority complexityTier
      acceptanceCriteria relevantFiles referenceFiles : RawField)
deriving Repr, DecidableEq

/-- Typed output-row payloads. Rows are written through the store's
schema-validated `put` path, so a row stored under a schema key carries that
schema's payload; rows whose payload the claims never inspect are `plain`. -/
inductive Payload where
  | land (l : LandSel)
  | mq (r : MergeQueueResultRow)
  | discover (tickets : List RawCandidate)
  | implementOut (r : ImplementRow)
  | plain
deriving Repr, DecidableEq

/-- An output-store row: `(schema_key, node_id, iteration, payload)`, scoped to
the current run. -/
structure OutputRow where
  schemaKey : String
  nodeId : String
  iteration : Nat
  payload : Payload
deriving Repr, DecidableEq

/-- The per-frame context accessor: the run's output rows plus the current
Ralph iteration (`ctx.iteration`). -/
structure Ctx where
  rows : List OutputRow
  currentIteration : Nat
deriving Repr, DecidableEq

/-- Key match of a row against `(schema_key, node_id)`. -/
def matchesKey (s n : String) (r : OutputRow) : Bool :=
  decide (r.schemaKey = s ∧ r.nodeId = n)

/-- One reduction step of the latest-row fold: keep the row with the larger
iteration (the earlier row wins a tie; the store's unique key makes ties
impossible for a single node). -/
def latestStep (acc : Option OutputRow) (r : OutputRow) : Option OutputRow :=
  match acc with
  | none => some r
  | some b => if b.iteration < r.iteration then some r else some b

/-- Pick the row with the largest iteration from a list. -/
def pickLatest (rows : List OutputRow) : Option OutputRow :=
  rows.foldl latestStep none

/-- Modelled from the spec: `ctx.latest(schema, nodeId)` of the context
accessor (the accessor implementation lives in the external orchestrator
package; §4.9 and the in-repo workflow-engine notes define it) — the
cross-iteration accessor, returning the row with the highest iteration for
`(run, nodeId)` in the given table. -/
def latestRow (ctx : Ctx) (s n : String) : Option OutputRow :=
  pickLatest (ctx.rows.filter (matchesKey s n))

/-- Modelled from the spec: `ctx.outputMaybe(schema, { nodeId })` of the
context accessor (implementation external; §4.9 and the in-repo
workflow-engine notes define it) — the iteration-scoped accessor, returning
the row at the current frame's iteration and `none` when absent. -/
def outputMaybeRow (ctx : Ctx) (s n : String) : Option OutputRow :=
  ctx.rows.find? (fun r => matchesKey s n r && decide (r.iteration = ctx.currentIteration))

/-- Insert into a `le`-sorted list in front of the first element that is not
strictly smaller (a stable ordered insert, mirroring stable
`Array.prototype.sort`). -/
def orderedInsertBy (le : α → α → Bool) (a : α) : List α → List α
  | [] => [a]
  | b :: l => if le a b then a :: b :: l else b :: orderedInsertBy le a l

/-- Stable insertion sort by a boolean total preorder. -/
def insertionSortBy (le : α → α → Bool) : List α → List α
  | [] => []
  | a :: l => orderedInsertBy le a (insertionSortBy le l)

/-- Modelled from the spec: `ctx.outputs(table)` of the context accessor
(implementation external; §4.1 defines `scan` as the iteration-ascending
scan) — all rows of a table, in iteration-ascending order. -/
def outputsAsc (ctx : Ctx) (s : String) : List OutputRow :=
  insertionSortBy (fun a b => decide (a.iteration ≤ b.iteration))
    (ctx.rows.filter (fun r => decide (r.schemaKey = s)))

/-- `String.prototype.trim`: strip leading and trailing whitespace
(implemented structurally over the character list so that it evaluates by
kernel reduction). -/
def jsTrim (s : String) : String :=
  String.mk
    (((s.toList.dropWhile Char.isWhitespace).reverse.dropWhile
      Char.isWhitespace).reverse)

/-! ## Selectors (`src/selectors.ts`) -/

/-- A normalized ticket (`Ticket` interface of `selectors.ts`). -/
structure Ticket where
  id : String
  title : String
  description : String
  category : String
  priority : Priority
  complexityTier : ComplexityTier
  acceptanceCriteria : Option (List String)
  relevantFiles : Option (List String)
  referenceFiles : Option (List String)
deriving Repr, DecidableEq

/-- `normalizePriority`: a chain of strict string comparisons against the four
allowed values; anything else (wrong value, wrong type, absent) becomes
`medium`. -/
def normalizePriority : RawField → Priority
  | .str s =>
      if s = "critical" then .critical
      else if s = "high" then .high
      else if s = "medium" then .medium
      else if s = "low" then .low
      else .medium
  | _ => .medium

/-- `normalizeComplexityTier`: a chain of strict string comparisons against
the four allowed values; anything else becomes `medium`. -/
def normalizeComplexityTier : RawField → ComplexityTier
  | .str s =>
      if s = "trivial" then .trivial
      else if s = "small" then .small
      else if s = "medium" then .medium
      else if s = "large" then .large
      else .medium
  | _ => .medium

/-- The bullet-prefix strip of `toStringList`: one application of
`line.replace(regex, "")` for the anchored pattern
"whitespace*, then `-` or `*` or digits followed by `.`, then whitespace+". -/
def stripBulletPrefix (s : String) : String :=
  let rest := s.toList.dropWhile Char.isWhitespace
  let afterBullet : Option (List Char) :=
    match rest with
    | '-' :: t => some t
    | '*' :: t => some t
    | _ =>
        let ds := rest.takeWhile Char.isDigit
        if ds.isEmpty then none
        else
          match rest.drop ds.length with
          | '.' :: t => some t
          | _ => none
  match afterBullet with
  | some t =>
      if (t.head?.map Char.isWhitespace).getD false then
        String.mk (t.dropWhile Char.isWhitespace)
      else s
  | none => s

/-- Split on the regex `\r?\n` (a newline with an optional preceding carriage
return). -/
def splitLines (s : String) : List String :=
  (s.split (· = '\n')).map
    (fun line => if line.endsWith "\r" then line.dropRight 1 else line)

/-- `toStringList` of `selectors.ts`: an array is trimmed-and-filtered; a
string is trimmed then split into bullet-stripped nonempty lines (falling back
to the whole trimmed text); anything else is absent. -/
def toStringList : RawField → Option (List String)
  | .list xs =>
      let l := (xs.map jsTrim).filter (fun x => decide (x ≠ ""))
      if l.isEmpty then none else some l
  | .str s =>
      let text := jsTrim s
      if text = "" then none
      else
        let lines := ((splitLines text).map
          (fun line => jsTrim (stripBulletPrefix line))).filter (fun x => decide (x ≠ ""))
        if lines.isEmpty then some [text] else some lines
  | _ => none

/-- The trimmed `id` field of a candidate: `typeof id === "string" ?
id.trim() : ""` (a non-object candidate has no usable id). -/
def rawIdTrim : RawCandidate → String
  | .notObject => ""
  | .obj id _ _ _ _ _ _ _ _ =>
      match id with
      | .str s => jsTrim s
      | _ => ""

/-- `normalizeTicket` of `selectors.ts`: reject non-objects and candidates
without a nonempty trimmed string id; coerce every other field. -/
def normalizeTicket : RawCandidate → Option Ticket
  | .notObject => none
  | .obj id title description category priority complexityTier
      acceptanceCriteria relevantFiles referenceFiles =>
      let idStr := match id with | .str s => jsTrim s | _ => ""
      if idStr = "" then none
      else some {
        id := idStr
        title := match title with
          | .str s => if jsTrim s ≠ "" then jsTrim s else idStr
          | _ => idStr
        description := match description with
          | .str s => s
          | _ => ""
        category := match category with
          | .str s => if jsTrim s ≠ "" then jsTrim s else "general"
          | _ => "general"
        priority := normalizePriority priority
        complexityTier := normalizeComplexityTier complexityTier
        acceptanceCriteria := toStringList acceptanceCriteria
        relevantFiles := toStringList relevantFiles
        referenceFiles := toStringList referenceFiles }

/-- Insert-or-overwrite in an association list, keeping the position of an
existing key (the behaviour of `Map.set` on an existing key). -/
def upsertAssoc (m : List (String × Ticket)) (t : Ticket) : List (String × Ticket) :=
  if m.any (fun p => p.1 == t.id) then
    m.map (fun p => if p.1 == t.id then (p.1, t) else p)
  else m ++ [(t.id, t)]

/-- The `tickets` array of a `discover` payload, when present. -/
def discoverTicketsOf : Payload → Option (List RawCandidate)
  | .discover ts => some ts
  | _ => none

/-- `selectDiscoverTickets`: all `discover` rows under node `discovery`, in
iteration order, folded into a last-write-wins ticket map. -/
def selectDiscoverTickets (ctx : Ctx) : List Ticket :=
  let rows := insertionSortBy (fun a b => decide (a.iteration ≤ b.iteration))
    ((outputsAsc ctx "discover").filter
      (fun r => decide (r.nodeId = "discovery") && (discoverTicketsOf r.payload).isSome))
  let tmap := rows.foldl
    (fun m row =>
      ((discoverTicketsOf row.payload).getD []).foldl
        (fun m c =>
          match normalizeTicket c with
          | some t => upsertAssoc m t
          | none => m)
        m)
    []
  tmap.map (·.2)

/-- The `merge_queue_result`-derived landing record for one row of the scan in
`selectLand`: `ticketsLanded` is consulted before `ticketsEvicted`. -/
def mqEntryFor (tid : String) (row : OutputRow) : Option LandSel :=
  match row.payload with
  | .mq res =>
      match res.ticketsLanded.find? (fun t => t.ticketId == tid) with
      | some landed => some {
          merged := true, mergeCommit := landed.mergeCommit, ciPassed := true,
          summary := landed.summary, evicted := false, evictionReason := none,
          evictionDetails := none, attemptedLog := none,
          attemptedDiffSummary := none, landedOnMainSinceBranch := none }
      | none =>
          match res.ticketsEvicted.find? (fun t => t.ticketId == tid) with
          | some ev => some {
              merged := false, mergeCommit := none, ciPassed := false,
              summary := ev.reason, evicted := true,
              evictionReason := some ev.reason, evictionDetails := some ev.details,
              attemptedLog := none, attemptedDiffSummary := none,
              landedOnMainSinceBranch := none }
          | none => none
  | _ => none

/-- The `for (const row of mqResults)` loop of `selectLand`: the first row of
the scan containing the ticket wins. -/
def scanMq (tid : String) : List OutputRow → Option LandSel
  | [] => none
  | r :: rest =>
      match mqEntryFor tid r with
      | some v => some v
      | none => scanMq tid rest

/-- `selectLand` of `selectors.ts`: the latest direct `land` row if one
exists, otherwise the scan of the `merge_queue_result` rows. -/
def selectLand (ctx : Ctx) (tid : String) : Option LandSel :=
  match latestRow ctx "land" (tid ++ ":land") with
  | some row =>
      match row.payload with
      | .land l => some l
      | _ => none
  | none => scanMq tid (outputsAsc ctx "merge_queue_result")

/-- `selectImplement`: the latest `implement` row for the ticket. -/
def selectImplement (ctx : Ctx) (tid : String) : Option ImplementRow :=
  match latestRow ctx "implement" (tid ++ ":implement") with
  | some row =>
      match row.payload with
      | .implementOut r => some r
      | _ => none
  | none => none

/-- The `stageToCheck` record of `isTicketTierComplete`: maps a stage name to
the output key and node id checked for tier completion. -/
def stageToCheck (ticketId stage : String) : Option (String × String) :=
  if stage = "implement" then some ("implement", ticketId ++ ":implement")
  else if stage = "test" then some ("test_results", ticketId ++ ":test")
  else if stage = "build-verify" then some ("build_verify", ticketId ++ ":build-verify")
  else if stage = "code-review" then some ("code_review", ticketId ++ ":code-review")
  else if stage = "spec-review" then some ("spec_review", ticketId ++ ":spec-review")
  else if stage = "review-fix" then some ("review_fix", ticketId ++ ":review-fix")
  else if stage = "report" then some ("report", ticketId ++ ":report")
  else none

/-- `isTicketTierComplete` of `selectors.ts`: a (cross-iteration) output row
exists for the schema of the tier's final stage under node id
`{ticketId}:{finalStage}`. -/
def isTicketTierComplete (ctx : Ctx) (ticketId : String) (tier : ComplexityTier) : Bool :=
  match stageToCheck ticketId (getTierFinalStage tier) with
  | none => false
  | some (out, nid) => (latestRow ctx out nid).isSome

/-- `PIPELINE_STAGES_REVERSE` of `TicketScheduler.tsx`. -/
def pipelineStagesReverse (tid : String) : List (String × String × String) :=
  [("land", tid ++ ":land", "landed"),
   ("report", tid ++ ":report", "report"),
   ("review_fix", tid ++ ":review-fix", "review_fix"),
   ("code_review", tid ++ ":code-review", "code_review"),
   ("spec_review", tid ++ ":spec-review", "spec_review"),
   ("build_verify", tid ++ ":build-verify", "build_verify"),
   ("test_results", tid ++ ":test", "test"),
   ("implement", tid ++ ":implement", "implement"),
   ("plan", tid ++ ":plan", "plan"),
   ("research", tid ++ ":research", "research")]

/-- `computePipelineStage` of `TicketScheduler.tsx`: the first stage of the
reverse-ordered table whose iteration-scoped output exists. -/
def computePipelineStage (ctx : Ctx) (tid : String) : String :=
  match (pipelineStagesReverse tid).find?
      (fun e => (outputMaybeRow ctx e.1 e.2.1).isSome) with
  | some e => e.2.2
  | none => "not_started"

/-! ## Merge-queue candidate selection (`SuperRalph.tsx`, `AgenticMergeQueue.tsx`) -/

/-- `landed` of a ticket state in `SuperRalph.tsx`:
`selectLand(ctx, id)?.merged === true`. -/
def landedFor (ctx : Ctx) (tid : String) : Bool :=
  match selectLand ctx tid with
  | some l => l.merged
  | none => false

/-- `tierComplete` of a ticket state in `SuperRalph.tsx`: a ticket whose
landing state is evicted-and-not-merged is not tier-complete; otherwise
`isTicketTierComplete` decides. -/
def tierCompleteFor (ctx : Ctx) (t : Ticket) : Bool :=
  let land := selectLand ctx t.id
  let evicted := match land with
    | some l => l.evicted && !l.merged
    | none => false
  if evicted then false
  else isTicketTierComplete ctx t.id t.complexityTier

/-- One element of the `ticketStates` array of `SuperRalph.tsx`. -/
structure TicketStateR where
  ticket : Ticket
  pipelineStage : String
  landed : Bool
  tierComplete : Bool
deriving Repr, DecidableEq

/-- The `ticketStates` computation of `SuperRalph.tsx`. -/
def ticketStatesOf (ctx : Ctx) (unfinished : List Ticket) : List TicketStateR :=
  unfinished.map (fun t => {
    ticket := t
    pipelineStage := computePipelineStage ctx t.id
    landed := landedFor ctx t.id
    tierComplete := tierCompleteFor ctx t })

/-- A ticket as offered to the agentic merge queue
(`AgenticMergeQueueTicket`). -/
structure AgenticMergeQueueTicket where
  ticketId : String
  ticketTitle : String
  ticketCategory : String
  priority : Priority
  reportComplete : Bool
  landed : Bool
  filesModified : List String
  filesCreated : List String
  worktreePath : String
deriving Repr, DecidableEq

/-- The `mergeQueueTickets` computation of `SuperRalph.tsx`: tier-complete,
not-landed ticket states, mapped to merge-queue candidates. -/
def mergeQueueTicketsOf (ctx : Ctx) (unfinished : List Ticket) :
    List AgenticMergeQueueTicket :=
  ((ticketStatesOf ctx unfinished).filter
      (fun s => s.tierComplete && !s.landed)).map
    (fun s => {
      ticketId := s.ticket.id
      ticketTitle := s.ticket.title
      ticketCategory := s.ticket.category
      priority := s.ticket.priority
      reportComplete := s.tierComplete
      landed := s.landed
      filesModified := ((selectImplement ctx s.ticket.id).bind (·.filesModified)).getD []
      filesCreated := ((selectImplement ctx s.ticket.id).bind (·.filesCreated)).getD []
      worktreePath := "/tmp/workflow-wt-" ++ s.ticket.id })

/-- The `readyTickets` filter of `AgenticMergeQueue.tsx`
(`t.reportComplete && !t.landed`). -/
def readyTicketsFilter (tickets : List AgenticMergeQueueTicket) :
    List AgenticMergeQueueTicket :=
  tickets.filter (fun t => t.reportComplete && !t.landed)

/-! ## Scheduler bridge (`TicketScheduler.tsx`) -/

/-- An active job of the transient job queue (`ScheduledJob` of
`scheduledTasks.ts`). -/
structure ScheduledJob where
  jobId : String
  jobType : String
  agentId : String
  ticketId : Option String
  createdAtMs : Nat
deriving Repr, DecidableEq

/-- `JOB_TYPE_TO_OUTPUT_KEY` of `TicketScheduler.tsx`: the output table used
to detect completion of each job type. -/
def JOB_TYPE_TO_OUTPUT_KEY (t : String) : Option String :=
  if t = "discovery" then some "discover"
  else if t = "progress-update" then some "progress"
  else if t = "codebase-review" then some "category_review"
  else if t = "integration-test" then some "integration_test"
  else if t = "ticket:research" then some "research"
  else if t = "ticket:plan" then some "plan"
  else if t = "ticket:implement" then some "implement"
  else if t = "ticket:test" then some "test_results"
  else if t = "ticket:build-verify" then some "build_verify"
  else if t = "ticket:spec-review" then some "spec_review"
  else if t = "ticket:code-review" then some "code_review"
  else if t = "ticket:review-fix" then some "review_fix"
  else if t = "ticket:report" then some "report"
  else none

/-- `isJobComplete` of `TicketScheduler.tsx`: one uniform, iteration-scoped
lookup (`ctx.outputMaybe(outputKey, { nodeId: job.jobId })`) for every job
type. -/
def isJobComplete (ctx : Ctx) (job : ScheduledJob) : Bool :=
  match JOB_TYPE_TO_OUTPUT_KEY job.jobType with
  | none => false
  | some key => (outputMaybeRow ctx key job.jobId).isSome

/-! ## Speculative merge-queue coordinator (`speculativeMergeQueue.ts`) -/

/-- `MergeQueueOrderingStrategy`. -/
inductive MergeQueueOrderingStrategy where
  | reportCompleteFifo
  | priority
  | ticketOrder
deriving Repr, DecidableEq

/-- A ticket as submitted to the speculative coordinator (`MergeQueueTicket`). -/
structure MergeQueueTicket where
  ticketId : String
  ticketTitle : String
  ticketCategory : String
  priority : Priority
  reportIteration : Nat
  worktreePath : String
deriving Repr, DecidableEq

/-- A coordinator entry's lifecycle status (`"pending" | "resolved"`). -/
inductive EntryStatus where
  | pending
  | resolved
deriving Repr, DecidableEq

/-- The outcome delivered for a ticket (`MergeQueueLandResult`). -/
structure MergeQueueLandResult where
  merged : Bool
  mergeCommit : Option String
  ciPassed : Bool
  summary : String
  evicted : Bool
  evictionReason : Option String
  evictionDetails : Option String
  attemptedLog : Option String
  attemptedDiffSummary : Option String
  landedOnMainSinceBranch : Option String
deriving Repr, DecidableEq

/-- A coordinator queue entry (`QueueEntry`); waiters are identified by
opaque numbers standing for the registered resolve callbacks. -/
structure QueueEntry where
  ticket : MergeQueueTicket
  status : EntryStatus
  readyForQueue : Bool
  enqueueSeq : Nat
  snapshotIndex : Nat
  invalidatedCount : Nat
  result : Option MergeQueueLandResult
  waiters : List Nat
deriving Repr, DecidableEq

/-- The outcome of one subprocess invocation (`CommandResult`). -/
structure CommandResult where
  code : Nat
  stdout : String
  stderr : String
deriving Repr, DecidableEq

/-- `OperationResult` (`ok` plus details). -/
structure OperationResult where
  ok : Bool
  details : String
deriving Repr, DecidableEq

/-- `CiRunResult`. -/
structure CiRunResult where
  passed : Bool
  details : String
deriving Repr, DecidableEq

/-- The decision of the post-rebase review agent for one entry, after the
JSON-extraction and error-defaulting logic of `processLoop`. -/
structure ReviewOutcome where
  approved : Bool
  reason : String
deriving Repr, DecidableEq

/-- `EvictionContext`: the three artifacts collected for a failed entry. -/
structure EvictionContext where
  attemptedLog : Option String
  attemptedDiffSummary : Option String
  landedOnMainSinceBranch : Option String
deriving Repr, DecidableEq

/-- `bookmarkRev`: the revset of a ticket's branch bookmark. -/
def bookmarkRev (ticketId : String) : String :=
  "bookmark(\"ticket/" ++ ticketId ++ "\")"

/-- `truncate` with the default ceiling of 12000 characters: keeps the tail of
an over-long text. -/
def truncate (text : String) : String :=
  if text.length ≤ 12000 then text else text.drop (text.length - 12000)

/-- `stringifyFailure`. -/
def stringifyFailure (prefixText : String) (code : Nat) (stderr : String) : String :=
  let detail := jsTrim stderr
  if detail ≠ "" then prefixText ++ ": " ++ detail
  else prefixText ++ ": exit " ++ toString code

/-- `collectDefaultEvictionContext`, as a function of the results of the three
jj queries it issues (branch log, summary diff of the attempted change, and
mainline log since the branch point): a successful query contributes its
trimmed stdout (`none` when empty), a failed one contributes a failure note. -/
def collectDefaultEvictionContext (logRes diffRes mainRes : CommandResult) :
    EvictionContext :=
  { attemptedLog :=
      if logRes.code = 0 then
        if jsTrim logRes.stdout = "" then none else some (jsTrim logRes.stdout)
      else some (stringifyFailure "Could not capture attempted log" logRes.code logRes.stderr)
    attemptedDiffSummary :=
      if diffRes.code = 0 then
        if jsTrim diffRes.stdout = "" then none else some (jsTrim diffRes.stdout)
      else some (stringifyFailure "Could not capture attempted diff" diffRes.code diffRes.stderr)
    landedOnMainSinceBranch :=
      if mainRes.code = 0 then
        if jsTrim mainRes.stdout = "" then none else some (jsTrim mainRes.stdout)
      else some (stringifyFailure "Could not capture mainline changes" mainRes.code mainRes.stderr) }

/-- The outcomes of the external operations of `MergeQueueOps` (plus the
post-rebase review agent's decisions) during one processing round, abstracted
as a deterministic record: the coordinator only branches on these values. -/
structure MergeQueueOps where
  fetchMain : OperationResult
  rebase : String → String → OperationResult
  runCi : String → CiRunResult
  fastForwardMain : String → OperationResult
  pushMain : OperationResult
  readCommitId : String → Option String
  collectEvictionContext : String → EvictionContext
  review : Option (String → ReviewOutcome)

/-- The operations a coordinator step issues against the VCS / workspace
layer, recorded as a trace (arguments are ticket ids). -/
inductive MqOp where
  | fetchOp
  | rebaseOp (ticketId destination : String)
  | reviewOp (ticketId : String)
  | ciOp (ticketId : String)
  | ffOp (ticketId : String)
  | pushOp
  | readCommitOp (ticketId : String)
  | collectCtxOp (ticketId : String)
  | cleanupOp (ticketId : String)
deriving Repr, DecidableEq

/-- `priorityRank` (`critical: 0, high: 1, medium: 2, low: 3`; the `?? 99`
fallback of the source is unreachable for the closed priority union). -/
def priorityRank : Priority → Nat
  | .critical => 0
  | .high => 1
  | .medium => 2
  | .low => 3

/-- The `"priority"` comparator of `getOrderedPendingEntries` as a total
preorder: rank, then report iteration, then enqueue sequence. -/
def priorityCmpLE (a b : QueueEntry) : Bool :=
  decide (priorityRank a.ticket.priority < priorityRank b.ticket.priority) ||
    (decide (priorityRank a.ticket.priority = priorityRank b.ticket.priority) &&
      (decide (a.ticket.reportIteration < b.ticket.reportIteration) ||
        (decide (a.ticket.reportIteration = b.ticket.reportIteration) &&
          decide (a.enqueueSeq ≤ b.enqueueSeq))))

/-- The `"ticket-order"` comparator: snapshot index, then enqueue sequence. -/
def ticketOrderCmpLE (a b : QueueEntry) : Bool :=
  decide (a.snapshotIndex < b.snapshotIndex) ||
    (decide (a.snapshotIndex = b.snapshotIndex) && decide (a.enqueueSeq ≤ b.enqueueSeq))

/-- The `"report-complete-fifo"` comparator: report iteration, then enqueue
sequence. -/
def fifoCmpLE (a b : QueueEntry) : Bool :=
  decide (a.ticket.reportIteration < b.ticket.reportIteration) ||
    (decide (a.ticket.reportIteration = b.ticket.reportIteration) &&
      decide (a.enqueueSeq ≤ b.enqueueSeq))

/-- `getOrderedPendingEntries`: the pending, ready entries (in the entry map's
insertion order), stably sorted by the strategy's comparator. -/
def getOrderedPendingEntries (strategy : MergeQueueOrderingStrategy)
    (entries : List QueueEntry) : List QueueEntry :=
  let pending := entries.filter
    (fun e => decide (e.status = EntryStatus.pending) && e.readyForQueue)
  match strategy with
  | .priority => insertionSortBy priorityCmpLE pending
  | .ticketOrder => insertionSortBy ticketOrderCmpLE pending
  | .reportCompleteFifo => insertionSortBy fifoCmpLE pending

/-- `resolveEntry`: mark the entry resolved, clear readiness, record the
result, and deliver the result once to every registered waiter (the second
component lists the deliveries). -/
def resolveEntry (e : QueueEntry) (result : MergeQueueLandResult) :
    QueueEntry × List (Nat × MergeQueueLandResult) :=
  ({ e with
      status := EntryStatus.resolved
      readyForQueue := false
      result := some result
      waiters := [] },
    e.waiters.map (fun w => (w, result)))

/-- `upsertEntry`: create a fresh pending entry, or — when the incoming ticket
carries a strictly higher report iteration — reopen the existing entry
(pending again, result, invalidation counter and waiters cleared, new enqueue
sequence), then merge the incoming ticket and readiness into the entry.
The first argument is the map's entry for the ticket id; `counter` is
`enqueueCounter`. Returns the stored entry and the new counter. -/
def upsertEntry (existing : Option QueueEntry) (counter : Nat)
    (ticket : MergeQueueTicket) (snapshotIndex : Nat) (readyForQueue : Bool) :
    QueueEntry × Nat :=
  match existing with
  | none =>
      ({ ticket := ticket
         status := EntryStatus.pending
         readyForQueue := readyForQueue
         enqueueSeq := counter
         snapshotIndex := snapshotIndex
         invalidatedCount := 0
         result := none
         waiters := [] }, counter + 1)
  | some e =>
      let (e1, counter1) :=
        if ticket.reportIteration > e.ticket.reportIteration then
          ({ e with
              status := EntryStatus.pending
              result := none
              invalidatedCount := 0
              waiters := []
              enqueueSeq := counter }, counter + 1)
        else (e, counter)
      ({ e1 with
          ticket := ticket
          readyForQueue := e1.readyForQueue || readyForQueue
          snapshotIndex := snapshotIndex }, counter1)

/-- The structured result attached on eviction (`evictEntry`): not merged,
reason and (truncated, defaulted) details recorded, and the three eviction
artifacts threaded in from `collectEvictionContext`. -/
def evictionResult (ops : MergeQueueOps) (e : QueueEntry)
    (reason details : String) : MergeQueueLandResult :=
  let context := ops.collectEvictionContext e.ticket.ticketId
  let retestNote :=
    if e.invalidatedCount > 0 then
      " This ticket had already been invalidated " ++
        toString e.invalidatedCount ++ " time(s)."
    else ""
  { merged := false
    mergeCommit := none
    ciPassed := false
    summary := "Evicted " ++ e.ticket.ticketId ++ " from merge queue (" ++
      reason ++ ")." ++ retestNote
    evicted := true
    evictionReason := some reason
    evictionDetails :=
      some (truncate (if details = "" then "No additional details." else details))
    attemptedLog := context.attemptedLog
    attemptedDiffSummary := context.attemptedDiffSummary
    landedOnMainSinceBranch := context.landedOnMainSinceBranch }

/-- The operations issued while evicting one entry: collect the eviction
context, then clean up the ticket's resources. -/
def evictTrace (e : QueueEntry) : List MqOp :=
  [MqOp.collectCtxOp e.ticket.ticketId, MqOp.cleanupOp e.ticket.ticketId]

/-- `evictEntry`: resolve the entry with its structured eviction result. -/
def evictEntry (ops : MergeQueueOps) (e : QueueEntry) (reason details : String) :
    QueueEntry × List MqOp :=
  ((resolveEntry e (evictionResult ops e reason details)).1, evictTrace e)

/-- The successful landing result for one entry of a landed prefix. -/
def landedResult (ops : MergeQueueOps) (e : QueueEntry) : MergeQueueLandResult :=
  let retestNote :=
    if e.invalidatedCount > 0 then
      " Retested " ++ toString e.invalidatedCount ++ " time(s) after queue evictions."
    else ""
  { merged := true
    mergeCommit := ops.readCommitId (bookmarkRev e.ticket.ticketId)
    ciPassed := true
    summary := "Landed " ++ e.ticket.ticketId ++
      " via speculative merge queue." ++ retestNote
    evicted := false
    evictionReason := none
    evictionDetails := none
    attemptedLog := none
    attemptedDiffSummary := none
    landedOnMainSinceBranch := none }

/-- Resolve one entry of a landed prefix. -/
def landEntry (ops : MergeQueueOps) (e : QueueEntry) : QueueEntry :=
  (resolveEntry e (landedResult ops e)).1

/-- `landPrefix`: fast-forward main to the tail entry's bookmark, push, and
resolve every entry as landed; a failed fast-forward (resp. push) instead
evicts every entry with `fast_forward_failed` (resp. `push_failed`). The push
is attempted exactly once — there is no retry and no re-fetch. -/
def landPrefix (ops : MergeQueueOps) (entries : List QueueEntry) :
    List QueueEntry × List MqOp :=
  match entries.getLast? with
  | none => ([], [])
  | some tail =>
      let ff := ops.fastForwardMain tail.ticket.ticketId
      if ff.ok then
        let push := ops.pushMain
        if push.ok then
          (entries.map (landEntry ops),
            MqOp.ffOp tail.ticket.ticketId :: MqOp.pushOp ::
              entries.flatMap (fun e =>
                [MqOp.readCommitOp e.ticket.ticketId, MqOp.cleanupOp e.ticket.ticketId]))
        else
          (entries.map (fun e => (evictEntry ops e "push_failed" push.details).1),
            MqOp.ffOp tail.ticket.ticketId :: MqOp.pushOp :: entries.flatMap evictTrace)
      else
        (entries.map (fun e => (evictEntry ops e "fast_forward_failed" ff.details).1),
          MqOp.ffOp tail.ticket.ticketId :: entries.flatMap evictTrace)

/-- The index of the first list element satisfying `p` (`Array.findIndex`,
with `none` for `-1`). -/
def firstIdxWhere (p : α → Bool) : List α → Option Nat
  | [] => none
  | a :: l => if p a then some 0 else (firstIdxWhere p l).map (· + 1)

/-- The stacked-rebase loop of `processLoop`: rebase each window entry onto
its predecessor's bookmark (the head onto `main`); stops at the first failure,
returning its window index and failure details, plus the issued operations. -/
def rebasePhase (ops : MergeQueueOps) :
    List QueueEntry → String → Option (Nat × String) × List MqOp
  | [], _ => (none, [])
  | e :: rest, destination =>
      let r := ops.rebase e.ticket.ticketId destination
      if r.ok then
        let (f, tr) := rebasePhase ops rest (bookmarkRev e.ticket.ticketId)
        (f.map (fun p => (p.1 + 1, p.2)),
          MqOp.rebaseOp e.ticket.ticketId destination :: tr)
      else
        (some (0, r.details), [MqOp.rebaseOp e.ticket.ticketId destination])

/-- Window update on a rebase failure at index `k`: only the failed entry is
evicted (`rebase_conflict`); the rest of the window is untouched. -/
def rebaseFailStep (ops : MergeQueueOps) (w : List QueueEntry) (k : Nat)
    (details : String) : List QueueEntry × List MqOp :=
  match w.drop k with
  | [] => (w, [])
  | failed :: rest =>
      let (ev, tr) := evictEntry ops failed "rebase_conflict" details
      (w.take k ++ ev :: rest, tr)

/-- Increment an entry's invalidation counter by one
(`follower.invalidatedCount += 1`). -/
def bumpInvalidated (e : QueueEntry) : QueueEntry :=
  { e with invalidatedCount := e.invalidatedCount + 1 }

/-- Window update on a review / CI failure at index `k`: land the prefix
before the failure, evict the failed entry with the given reason and details,
and increment the invalidation counter of every later entry by exactly one. -/
def failStep (ops : MergeQueueOps) (w : List QueueEntry) (k : Nat)
    (reason details : String) : List QueueEntry × List MqOp :=
  let landed := landPrefix ops (w.take k)
  match w.drop k with
  | [] => (w, landed.2)
  | failed :: followers =>
      let (ev, tr) := evictEntry ops failed reason details
      (landed.1 ++ ev :: followers.map bumpInvalidated, landed.2 ++ tr)

/-- The post-land CI phase of `processLoop`: run the checks for every window
entry; land the whole window when all pass, otherwise apply `failStep` at the
lowest-indexed failure with reason `ci_failed`. -/
def ciPhase (ops : MergeQueueOps) (w : List QueueEntry) :
    List QueueEntry × List MqOp :=
  let tr0 := w.map (fun e => MqOp.ciOp e.ticket.ticketId)
  match firstIdxWhere (fun e => !(ops.runCi e.ticket.ticketId).passed) w with
  | none =>
      let landed := landPrefix ops w
      (landed.1, tr0 ++ landed.2)
  | some k =>
      let details := ((w.get? k).map
        (fun e => (ops.runCi e.ticket.ticketId).details)).getD ""
      let step := failStep ops w k "ci_failed" details
      (step.1, tr0 ++ step.2)

/-- One iteration of the coordinator's `processLoop` over a speculative window
`w` (the ordered pending prefix of depth `maxSpeculativeDepth`): fetch main,
stacked rebase, the optional post-rebase review gate, then parallel CI. -/
def processRound (ops : MergeQueueOps) (w : List QueueEntry) :
    List QueueEntry × List MqOp :=
  if (ops.fetchMain).ok then
    match rebasePhase ops w "main" with
    | (some (k, details), tr) =>
        let step := rebaseFailStep ops w k details
        (step.1, MqOp.fetchOp :: tr ++ step.2)
    | (none, tr) =>
        match ops.review with
        | none =>
            let step := ciPhase ops w
            (step.1, MqOp.fetchOp :: tr ++ step.2)
        | some rv =>
            let tr1 := w.map (fun e => MqOp.reviewOp e.ticket.ticketId)
            match firstIdxWhere (fun e => !(rv e.ticket.ticketId).approved) w with
            | some k =>
                let reason := ((w.get? k).map
                  (fun e => (rv e.ticket.ticketId).reason)).getD ""
                let step := failStep ops w k "review_failed" reason
                (step.1, MqOp.fetchOp :: tr ++ tr1 ++ step.2)
            | none =>
                let step := ciPhase ops w
                (step.1, MqOp.fetchOp :: tr ++ tr1 ++ step.2)
  else
    match w with
    | [] => ([], [MqOp.fetchOp])
    | e :: rest =>
        let (ev, tr) := evictEntry ops e "fetch_failed" (ops.fetchMain).details
        (ev :: rest, MqOp.fetchOp :: tr)

/-! ## Helper lemmas: stable insertion sort -/

theorem mem_orderedInsertBy (le : α → α → Bool) (a x : α) :
    ∀ l : List α, x ∈ orderedInsertBy le a l ↔ x = a ∨ x ∈ l := by
  intro l
  induction l with
  | nil => simp [orderedInsertBy]
  | cons b l ih =>
      by_cases h : le a b = true
      · simp [orderedInsertBy, h]
      · simp only [orderedInsertBy, if_neg h, List.mem_cons, ih]
        tauto

theorem orderedInsertBy_perm (le : α → α → Bool) (a : α) :
    ∀ l : List α, List.Perm (orderedInsertBy le a l) (a :: l) := by
  intro l
  induction l with
  | nil => simp [orderedInsertBy]
  | cons b l ih =>
      by_cases h : le a b = true
      · simp [orderedInsertBy, h]
      · simp only [orderedInsertBy, if_neg h]
        exact (List.Perm.cons b ih).trans (List.Perm.swap a b l)

theorem insertionSortBy_perm (le : α → α → Bool) :
    ∀ l : List α, List.Perm (insertionSortBy le l) l := by
  intro l
  induction l with
  | nil => simp [insertionSortBy]
  | cons a l ih =>
      exact (orderedInsertBy_perm le a (insertionSortBy le l)).trans
        (List.Perm.cons a ih)

theorem pairwise_orderedInsertBy (le : α → α → Bool)
    (htot : ∀ a b, le a b = true ∨ le b a = true)
    (htrans : ∀ a b c, le a b = true → le b c = true → le a c = true)
    (a : α) :
    ∀ l : List α, l.Pairwise (fun x y => le x y = true) →
      (orderedInsertBy le a l).Pairwise (fun x y => le x y = true) := by
  intro l
  induction l with
  | nil => simp [orderedInsertBy]
  | cons b l ih =>
      intro hp
      rw [List.pairwise_cons] at hp
      by_cases h : le a b = true
      · rw [orderedInsertBy, if_pos h]
        refine List.Pairwise.cons ?_ (List.Pairwise.cons hp.1 hp.2)
        intro x hx
        rcases List.mem_cons.mp hx with hxb | hxl
        · exact hxb ▸ h
        · exact htrans a b x h (hp.1 x hxl)
      · rw [orderedInsertBy, if_neg h]
        refine List.Pairwise.cons ?_ (ih hp.2)
        intro x hx
        rcases (mem_orderedInsertBy le a x l).mp hx with hxa | hxl
        · rcases htot a b with hab | hba
          · exact absurd hab h
          · rw [hxa]; exact hba
        · exact hp.1 x hxl

theorem pairwise_insertionSortBy (le : α → α → Bool)
    (htot : ∀ a b, le a b = true ∨ le b a = true)
    (htrans : ∀ a b c, le a b = true → le b c = true → le a c = true) :
    ∀ l : List α, (insertionSortBy le l).Pairwise (fun x y => le x y = true) := by
  intro l
  induction l with
  | nil => simp [insertionSortBy]
  | cons a l ih =>
      exact pairwise_orderedInsertBy le htot htrans a _ ih

theorem priorityCmpLE_total (a b : QueueEntry) :
    priorityCmpLE a b = true ∨ priorityCmpLE b a = true := by
  simp only [priorityCmpLE, Bool.or_eq_true, Bool.and_eq_true, decide_eq_true_eq]
  omega

theorem priorityCmpLE_trans (a b c : QueueEntry) :
    priorityCmpLE a b = true → priorityCmpLE b c = true →
      priorityCmpLE a c = true := by
  simp only [priorityCmpLE, Bool.or_eq_true, Bool.and_eq_true, decide_eq_true_eq]
  omega

/-! ## Helper lemmas: store accessors -/

theorem latestStep_none (r : OutputRow) : latestStep none r = some r := rfl

theorem latestStep_some (b r : OutputRow) :
    latestStep (some b) r =
      if b.iteration < r.iteration then some r else some b := rfl

theorem foldl_latestStep_isSome (l : List OutputRow) :
    ∀ acc : Option OutputRow,
      (l.foldl latestStep acc).isSome ↔ (acc.isSome ∨ l ≠ []) := by
  induction l with
  | nil => simp
  | cons r l ih =>
      intro acc
      rw [List.foldl_cons, ih]
      cases acc with
      | none => simp [latestStep]
      | some b =>
          simp only [latestStep_some]
          by_cases h : b.iteration < r.iteration <;> simp [h]

theorem foldl_latestStep_max (l : List OutputRow) :
    ∀ (acc : Option OutputRow) (r : OutputRow),
      l.foldl latestStep acc = some r →
      (∀ x ∈ l, x.iteration ≤ r.iteration) ∧
        (∀ b, acc = some b → b.iteration ≤ r.iteration) := by
  induction l with
  | nil =>
      intro acc r h
      simp only [List.foldl_nil] at h
      subst h
      refine ⟨by simp, ?_⟩
      intro b hb
      injection hb with hb
      subst hb
      exact le_rfl
  | cons x l ih =>
      intro acc r h
      rw [List.foldl_cons] at h
      cases acc with
      | none =>
          rw [latestStep_none] at h
          have hx := ih (some x) r h
          refine ⟨?_, by simp⟩
          intro y hy
          rcases List.mem_cons.mp hy with hyx | hyl
          · exact hyx ▸ hx.2 x rfl
          · exact hx.1 y hyl
      | some b =>
          rw [latestStep_some] at h
          by_cases hbx : b.iteration < x.iteration
          · rw [if_pos hbx] at h
            have hx := ih (some x) r h
            have hxr : x.iteration ≤ r.iteration := hx.2 x rfl
            refine ⟨?_, ?_⟩
            · intro y hy
              rcases List.mem_cons.mp hy with hyx | hyl
              · exact hyx ▸ hxr
              · exact hx.1 y hyl
            · intro c hc
              injection hc with hc
              subst hc
              omega
          · rw [if_neg hbx] at h
            have hx := ih (some b) r h
            have hbr : b.iteration ≤ r.iteration := hx.2 b rfl
            refine ⟨?_, ?_⟩
            · intro y hy
              rcases List.mem_cons.mp hy with hyx | hyl
              · subst hyx
                omega
              · exact hx.1 y hyl
            · intro c hc
              injection hc with hc
              subst hc
              exact hbr

theorem foldl_latestStep_mem (l : List OutputRow) :
    ∀ (acc : Option OutputRow) (r : OutputRow),
      l.foldl latestStep acc = some r → acc = some r ∨ r ∈ l := by
  induction l with
  | nil =>
      intro acc r h
      simp only [List.foldl_nil] at h
      simp [h]
  | cons x l ih =>
      intro acc r h
      rw [List.foldl_cons] at h
      cases acc with
      | none =>
          rw [latestStep_none] at h
          rcases ih (some x) r h with hx | hl
          · injection hx with hx
            simp [hx]
          · simp [hl]
      | some b =>
          rw [latestStep_some] at h
          by_cases hbx : b.iteration < x.iteration
          · rw [if_pos hbx] at h
            rcases ih (some x) r h with hx | hl
            · injection hx with hx
              simp [hx]
            · simp [hl]
          · rw [if_neg hbx] at h
            rcases ih (some b) r h with hb | hl
            · exact Or.inl hb
            · simp [hl]

theorem latestRow_isSome_iff (ctx : Ctx) (s n : String) :
    (latestRow ctx s n).isSome ↔
      ∃ r ∈ ctx.rows, r.schemaKey = s ∧ r.nodeId = n := by
  rw [latestRow, pickLatest, foldl_latestStep_isSome]
  constructor
  · intro h
    rcases h with h | h
    · simp at h
    · rcases List.exists_mem_of_ne_nil _ h with ⟨r, hr⟩
      rw [List.mem_filter] at hr
      refine ⟨r, hr.1, ?_⟩
      have := hr.2
      simpa [matchesKey] using this
  · rintro ⟨r, hr, h1, h2⟩
    refine Or.inr ?_
    intro hnil
    have hmem : r ∈ ctx.rows.filter (matchesKey s n) := by
      rw [List.mem_filter]
      exact ⟨hr, by simp [matchesKey, h1, h2]⟩
    rw [hnil] at hmem
    simp at hmem

theorem latestRow_spec (ctx : Ctx) (s n : String) (r : OutputRow)
    (h : latestRow ctx s n = some r) :
    r ∈ ctx.rows ∧ r.schemaKey = s ∧ r.nodeId = n ∧
      ∀ x ∈ ctx.rows, x.schemaKey = s → x.nodeId = n →
        x.iteration ≤ r.iteration := by
  rw [latestRow, pickLatest] at h
  have hmem := foldl_latestStep_mem _ none r h
  have hmax := foldl_latestStep_max _ none r h
  rcases hmem with hnone | hmem
  · simp at hnone
  · rw [List.mem_filter] at hmem
    have hkeys : r.schemaKey = s ∧ r.nodeId = n := by
      have := hmem.2
      simpa [matchesKey] using this
    refine ⟨hmem.1, hkeys.1, hkeys.2, ?_⟩
    intro x hx h1 h2
    refine hmax.1 x ?_
    rw [List.mem_filter]
    exact ⟨hx, by simp [matchesKey, h1, h2]⟩

theorem outputMaybeRow_isSome_iff (ctx : Ctx) (s n : String) :
    (outputMaybeRow ctx s n).isSome ↔
      ∃ r ∈ ctx.rows, r.schemaKey = s ∧ r.nodeId = n ∧
        r.iteration = ctx.currentIteration := by
  rw [outputMaybeRow, List.find?_isSome]
  constructor
  · rintro ⟨r, hr, hp⟩
    simp only [matchesKey, Bool.and_eq_true, decide_eq_true_eq] at hp
    exact ⟨r, hr, hp.1.1, hp.1.2, hp.2⟩
  · rintro ⟨r, hr, h1, h2, h3⟩
    exact ⟨r, hr, by simp [matchesKey, h1, h2, h3]⟩

theorem scanMq_append (tid : String) (pre : List OutputRow) (r : OutputRow)
    (post : List OutputRow) (v : LandSel)
    (hpre : ∀ x ∈ pre, mqEntryFor tid x = none)
    (hr : mqEntryFor tid r = some v) :
    scanMq tid (pre ++ r :: post) = some v := by
  induction pre with
  | nil => simp [scanMq, hr]
  | cons x pre ih =>
      have hx := hpre x (by simp)
      rw [List.cons_append, scanMq, hx]
      exact ih (fun y hy => hpre y (by simp [hy]))

/-! ## Helper lemmas: coordinator phases -/

theorem firstIdxWhere_eq_some (p : α → Bool) :
    ∀ (l : List α) (k : Nat) (x : α),
      l.get? k = some x → p x = true →
      (∀ j y, j < k → l.get? j = some y → p y = false) →
      firstIdxWhere p l = some k := by
  intro l
  induction l with
  | nil => intro k x hx; simp at hx
  | cons a l ih =>
      intro k x hx hpx hpre
      cases k with
      | zero =>
          simp only [List.get?] at hx
          injection hx with hx
          subst hx
          simp [firstIdxWhere, hpx]
      | succ k =>
          have ha : p a = false := hpre 0 a (Nat.succ_pos k) rfl
          simp only [List.get?] at hx
          rw [firstIdxWhere, if_neg (by simp [ha])]
          rw [ih k x hx hpx
            (fun j y hj hy => hpre (j + 1) y (Nat.succ_lt_succ hj) hy)]
          rfl

theorem firstIdxWhere_eq_none (p : α → Bool) :
    ∀ l : List α, (∀ x ∈ l, p x = false) → firstIdxWhere p l = none := by
  intro l
  induction l with
  | nil => intro h; rfl
  | cons a l ih =>
      intro h
      rw [firstIdxWhere, if_neg (by simp [h a (by simp)])]
      rw [ih (fun x hx => h x (by simp [hx]))]
      rfl

theorem getLast?_take_succ :
    ∀ (l : List α) (k : Nat), k + 1 ≤ l.length →
      (l.take (k + 1)).getLast? = l.get? k := by
  intro l
  induction l with
  | nil => intro k hk; simp at hk
  | cons a l ih =>
      intro k hk
      cases k with
      | zero =>
          cases l with
          | nil => simp
          | cons b l' => simp [List.getLast?]
      | succ k =>
          have hlen : k + 1 ≤ l.length := by
            simpa using hk
          cases l with
          | nil => simp at hlen
          | cons b l' =>
              have step : (a :: b :: l').take (k + 1 + 1) =
                  a :: (b :: l').take (k + 1) := by
                simp [List.take_succ_cons]
              rw [step]
              have step2 : (b :: l').take (k + 1) = b :: l'.take k := by
                simp [List.take_succ_cons]
              rw [step2, List.getLast?_cons_cons, ← step2, ih k hlen]
              rfl

/-- The trace of a fully successful stacked-rebase pass. -/
def rebaseTraceOf : List QueueEntry → String → List MqOp
  | [], _ => []
  | e :: rest, destination =>
      MqOp.rebaseOp e.ticket.ticketId destination ::
        rebaseTraceOf rest (bookmarkRev e.ticket.ticketId)

theorem rebasePhase_ok (ops : MergeQueueOps)
    (hreb : ∀ t d, (ops.rebase t d).ok = true) :
    ∀ (w : List QueueEntry) (dest : String),
      rebasePhase ops w dest = (none, rebaseTraceOf w dest) := by
  intro w
  induction w with
  | nil => intro dest; rfl
  | cons e rest ih =>
      intro dest
      rw [rebasePhase, if_pos (hreb e.ticket.ticketId dest), ih]
      rfl

theorem rebaseTraceOf_shape :
    ∀ (w : List QueueEntry) (d : String) (o : MqOp), o ∈ rebaseTraceOf w d →
      ∃ t dst, o = MqOp.rebaseOp t dst := by
  intro w
  induction w with
  | nil => intro d o ho; simp [rebaseTraceOf] at ho
  | cons e rest ih =>
      intro d o ho
      rw [rebaseTraceOf] at ho
      rcases List.mem_cons.mp ho with h | h
      · exact ⟨e.ticket.ticketId, d, h⟩
      · exact ih _ o h

theorem landPrefix_ffOp_mem (ops : MergeQueueOps) (es : List QueueEntry)
    (tail : QueueEntry) (h : es.getLast? = some tail) :
    MqOp.ffOp tail.ticket.ticketId ∈ (landPrefix ops es).2 := by
  rw [landPrefix, h]
  by_cases hff : (ops.fastForwardMain tail.ticket.ticketId).ok = true
  · by_cases hp : ops.pushMain.ok = true <;> simp [hff, hp]
  · simp [hff]

theorem landPrefix_success (ops : MergeQueueOps) (es : List QueueEntry)
    (tail : QueueEntry) (h : es.getLast? = some tail)
    (hff : (ops.fastForwardMain tail.ticket.ticketId).ok = true)
    (hp : ops.pushMain.ok = true) :
    landPrefix ops es =
      (es.map (landEntry ops),
        MqOp.ffOp tail.ticket.ticketId :: MqOp.pushOp ::
          es.flatMap (fun e =>
            [MqOp.readCommitOp e.ticket.ticketId, MqOp.cleanupOp e.ticket.ticketId])) := by
  rw [landPrefix, h]
  simp [hff, hp]

theorem landPrefix_pushFail (ops : MergeQueueOps) (es : List QueueEntry)
    (tail : QueueEntry) (h : es.getLast? = some tail)
    (hff : (ops.fastForwardMain tail.ticket.ticketId).ok = true)
    (hp : ops.pushMain.ok = false) :
    landPrefix ops es =
      (es.map (fun e => (evictEntry ops e "push_failed" ops.pushMain.details).1),
        MqOp.ffOp tail.ticket.ticketId :: MqOp.pushOp :: es.flatMap evictTrace) := by
  rw [landPrefix, h]
  simp [hff, hp]

theorem landPrefix_fst_length (ops : MergeQueueOps) (es : List QueueEntry) :
    (landPrefix ops es).1.length = es.length := by
  rw [landPrefix]
  cases h : es.getLast? with
  | none =>
      have : es = [] := by
        cases es with
        | nil => rfl
        | cons a l =>
            exfalso
            have hne : (a :: l : List QueueEntry) ≠ [] := by simp
            have := List.getLast?_isSome.mpr hne
            rw [h] at this
            simp at this
      simp [this]
  | some tail =>
      by_cases hff : (ops.fastForwardMain tail.ticket.ticketId).ok = true
      · by_cases hp : ops.pushMain.ok = true <;> simp [hff, hp]
      · simp [hff]

theorem failStep_eq (ops : MergeQueueOps) (w : List QueueEntry) (k : Nat)
    (x : QueueEntry) (reason details : String) (hx : w.get? k = some x) :
    failStep ops w k reason details =
      ((landPrefix ops (w.take k)).1 ++
        (evictEntry ops x reason details).1 ::
          (w.drop (k + 1)).map bumpInvalidated,
       (landPrefix ops (w.take k)).2 ++ evictTrace x) := by
  rcases List.get?_eq_some.mp hx with ⟨hk, hget⟩
  have hdrop : w.drop k = x :: w.drop (k + 1) := by
    rw [List.drop_eq_get_cons hk, hget]
  rw [failStep, hdrop]
  simp [evictEntry]

theorem ciPhase_fail (ops : MergeQueueOps) (w : List QueueEntry) (k : Nat)
    (x : QueueEntry) (hx : w.get? k = some x)
    (hfail : (ops.runCi x.ticket.ticketId).passed = false)
    (hpre : ∀ j y, j < k → w.get? j = some y →
      (ops.runCi y.ticket.ticketId).passed = true) :
    ciPhase ops w =
      ((landPrefix ops (w.take k)).1 ++
        (evictEntry ops x "ci_failed" (ops.runCi x.ticket.ticketId).details).1 ::
          (w.drop (k + 1)).map bumpInvalidated,
       w.map (fun e => MqOp.ciOp e.ticket.ticketId) ++
         ((landPrefix ops (w.take k)).2 ++ evictTrace x)) := by
  have hfi : firstIdxWhere (fun e => !(ops.runCi e.ticket.ticketId).passed) w =
      some k := by
    refine firstIdxWhere_eq_some _ w k x hx (by simp [hfail]) ?_
    intro j y hj hy
    simp [hpre j y hj hy]
  have hx2 : w[k]? = some x := by
    rw [← List.get?_eq_getElem?]
    exact hx
  rw [ciPhase]
  simp only [hfi]
  rw [failStep_eq ops w k x _ _ hx]
  simp [hx2]

theorem processRound_ci (ops : MergeQueueOps) (w : List QueueEntry)
    (hfetch : ops.fetchMain.ok = true)
    (hreb : ∀ t d, (ops.rebase t d).ok = true)
    (hrev : ops.review = none) :
    processRound ops w =
      ((ciPhase ops w).1,
        MqOp.fetchOp :: (rebaseTraceOf w "main" ++ (ciPhase ops w).2)) := by
  rw [processRound.eq_def, if_pos hfetch, rebasePhase_ok ops hreb w "main"]
  simp [hrev]

theorem processRound_review_fail (ops : MergeQueueOps)
    (rv : String → ReviewOutcome) (w : List QueueEntry) (k : Nat)
    (x : QueueEntry)
    (hfetch : ops.fetchMain.ok = true)
    (hreb : ∀ t d, (ops.rebase t d).ok = true)
    (hrev : ops.review = some rv)
    (hx : w.get? k = some x)
    (hfail : (rv x.ticket.ticketId).approved = false)
    (hpre : ∀ j y, j < k → w.get? j = some y →
      (rv y.ticket.ticketId).approved = true) :
    processRound ops w =
      ((landPrefix ops (w.take k)).1 ++
        (evictEntry ops x "review_failed" (rv x.ticket.ticketId).reason).1 ::
          (w.drop (k + 1)).map bumpInvalidated,
       MqOp.fetchOp :: (rebaseTraceOf w "main" ++
         (w.map (fun e => MqOp.reviewOp e.ticket.ticketId) ++
           ((landPrefix ops (w.take k)).2 ++ evictTrace x)))) := by
  have hfi : firstIdxWhere (fun e => !(rv e.ticket.ticketId).approved) w =
      some k := by
    refine firstIdxWhere_eq_some _ w k x hx (by simp [hfail]) ?_
    intro j y hj hy
    simp [hpre j y hj hy]
  have hx2 : w[k]? = some x := by
    rw [← List.get?_eq_getElem?]
    exact hx
  rw [processRound.eq_def, if_pos hfetch, rebasePhase_ok ops hreb w "main"]
  simp only [hrev, hfi]
  rw [failStep_eq ops w k x _ _ hx]
  simp [hx, hx2]

theorem processRound_review_ok (ops : MergeQueueOps)
    (rv : String → ReviewOutcome) (w : List QueueEntry)
    (hfetch : ops.fetchMain.ok = true)
    (hreb : ∀ t d, (ops.rebase t d).ok = true)
    (hrev : ops.review = some rv)
    (happ : ∀ y ∈ w, (rv y.ticket.ticketId).approved = true) :
    processRound ops w =
      ((ciPhase ops w).1,
        MqOp.fetchOp :: (rebaseTraceOf w "main" ++
          (w.map (fun e => MqOp.reviewOp e.ticket.ticketId) ++
            (ciPhase ops w).2))) := by
  have hfi : firstIdxWhere (fun e => !(rv e.ticket.ticketId).approved) w =
      none := by
    refine firstIdxWhere_eq_none _ w ?_
    intro y hy
    simp [happ y hy]
  rw [processRound.eq_def, if_pos hfetch, rebasePhase_ok ops hreb w "main"]
  simp [hrev, hfi]

/-- The window outcome asserted by claim C1 when entry `k` of window `w` (the
entry `x`) is the lowest-indexed failure, evicted for `reason` with `details`:
mainline is fast-forwarded to entry `k-1`'s bookmark (no fast-forward or push
is issued at all when `k = 0`; when the fast-forward and push succeed every
earlier entry resolves as landed), the failed entry resolves evicted carrying
the structured diagnostics (reason, details and the three collected
artifacts), and every entry at an index greater than `k` is exactly the old
entry with its invalidation counter incremented by one. -/
def EvictionSafety (ops : MergeQueueOps) (w : List QueueEntry) (k : Nat)
    (x : QueueEntry) (reason details : String) : Prop :=
  (∀ y, 0 < k → w.get? (k - 1) = some y →
    MqOp.ffOp y.ticket.ticketId ∈ (processRound ops w).2) ∧
  (k = 0 → (∀ t, MqOp.ffOp t ∉ (processRound ops w).2) ∧
    MqOp.pushOp ∉ (processRound ops w).2) ∧
  (∃ e2, (processRound ops w).1.get? k = some e2 ∧
    e2.status = EntryStatus.resolved ∧
    e2.result = some (evictionResult ops x reason details) ∧
    (evictionResult ops x reason details).evicted = true ∧
    (evictionResult ops x reason details).evictionReason = some reason ∧
    (evictionResult ops x reason details).attemptedLog =
      (ops.collectEvictionContext x.ticket.ticketId).attemptedLog ∧
    (evictionResult ops x reason details).attemptedDiffSummary =
      (ops.collectEvictionContext x.ticket.ticketId).attemptedDiffSummary ∧
    (evictionResult ops x reason details).landedOnMainSinceBranch =
      (ops.collectEvictionContext x.ticket.ticketId).landedOnMainSinceBranch) ∧
  (∀ j, k < j → (processRound ops w).1.get? j = (w.get? j).map bumpInvalidated) ∧
  (∀ y, 0 < k → w.get? (k - 1) = some y →
    (ops.fastForwardMain y.ticket.ticketId).ok = true → ops.pushMain.ok = true →
    ∀ j z, j < k → w.get? j = some z →
      (processRound ops w).1.get? j = some (landEntry ops z))

theorem evictionSafety_of_shape (ops : MergeQueueOps) (w : List QueueEntry)
    (k : Nat) (x : QueueEntry) (reason details : String)
    (hk : k < w.length)
    (heq1 : (processRound ops w).1 =
      (landPrefix ops (w.take k)).1 ++
        (evictEntry ops x reason details).1 ::
          (w.drop (k + 1)).map bumpInvalidated)
    (pre : List MqOp)
    (heq2 : (processRound ops w).2 =
      pre ++ ((landPrefix ops (w.take k)).2 ++ evictTrace x))
    (hpreff : ∀ t, MqOp.ffOp t ∉ pre)
    (hprepush : MqOp.pushOp ∉ pre) :
    EvictionSafety ops w k x reason details := by
  have hAlen : (landPrefix ops (w.take k)).1.length = k := by
    rw [landPrefix_fst_length, List.length_take]
    omega
  refine ⟨?_, ?_, ?_, ?_, ?_⟩
  · -- fast-forward issued to entry k-1's bookmark
    intro y hk0 hy
    have htail : (w.take k).getLast? = some y := by
      have hke : k = (k - 1) + 1 := by omega
      rw [hke, getLast?_take_succ w (k - 1) (by omega)]
      exact hy
    have := landPrefix_ffOp_mem ops (w.take k) y htail
    rw [heq2]
    simp only [List.mem_append]
    exact Or.inr (Or.inl this)
  · -- k = 0: no fast-forward, no push issued
    intro hk0
    subst hk0
    have hland : landPrefix ops (w.take 0) = ([], []) := by
      simp [landPrefix]
    constructor
    · intro t hmem
      rw [heq2, hland] at hmem
      simp only [List.mem_append] at hmem
      rcases hmem with h | h
      · exact hpreff t h
      · rcases h with h | h
        · simp at h
        · simp [evictTrace] at h
    · intro hmem
      rw [heq2, hland] at hmem
      simp only [List.mem_append] at hmem
      rcases hmem with h | h
      · exact hprepush h
      · rcases h with h | h
        · simp at h
        · simp [evictTrace] at h
  · -- the failed entry resolves evicted with structured diagnostics
    refine ⟨(evictEntry ops x reason details).1, ?_, ?_, ?_, rfl, rfl, rfl, rfl, rfl⟩
    · rw [heq1, List.get?_append_right (by omega)]
      rw [hAlen]
      simp
    · simp [evictEntry, resolveEntry]
    · simp [evictEntry, resolveEntry]
  · -- every later entry is bumped by exactly one
    intro j hj
    by_cases hjlen : j < w.length
    · rw [heq1, List.get?_append_right (by omega)]
      have hidx : j - (landPrefix ops (w.take k)).1.length = (j - k - 1) + 1 := by
        omega
      rw [hidx]
      have : ((evictEntry ops x reason details).1 ::
          (w.drop (k + 1)).map bumpInvalidated).get? ((j - k - 1) + 1) =
          ((w.drop (k + 1)).map bumpInvalidated).get? (j - k - 1) := rfl
      rw [this, List.get?_map, List.get?_drop]
      have hidx2 : k + 1 + (j - k - 1) = j := by omega
      rw [hidx2]
    · have hlhs : (processRound ops w).1.length = w.length := by
        rw [heq1]
        simp only [List.length_append, List.length_cons, List.length_map,
          List.length_drop, hAlen]
        omega
      have h1 : (processRound ops w).1.get? j = none :=
        List.get?_eq_none.mpr (by omega)
      have h2 : w.get? j = none := List.get?_eq_none.mpr (by omega)
      rw [h1, h2]
      rfl
  · -- when the fast-forward and push succeed, the prefix lands
    intro y hk0 hy hff hpush j z hj hz
    have htail : (w.take k).getLast? = some y := by
      have hke : k = (k - 1) + 1 := by omega
      rw [hke, getLast?_take_succ w (k - 1) (by omega)]
      exact hy
    have hsucc := landPrefix_success ops (w.take k) y htail hff hpush
    rw [heq1, hsucc]
    rw [List.get?_append (by simp [List.length_take]; omega)]
    rw [List.get?_map, List.get?_take hj, hz]
    rfl

/-- **C1** (testable property 7, §4.12 steps 5–9): for a speculative window in
which the entry at index `k` is the lowest-indexed entry to fail post-land CI
(first conjunct) or the post-rebase semantic review (second conjunct), one
round of the coordinator's processing loop fast-forwards mainline to the
branch of entry `k-1` (issuing no fast-forward and no push at all when
`k = 0`, and resolving every earlier entry as landed when the fast-forward
and push succeed), evicts entry `k` with structured diagnostics
(`ci_failed` / `review_failed`, the failure details, and the three collected
eviction artifacts), and increments the invalidation counter of every window
entry at an index greater than `k` by exactly 1. The CI conjunct covers both
review configurations: no post-rebase review agent at all, or a configured
agent that approved every window entry — the only situations in which the
processing loop reaches the CI phase (a review rejection is the second
conjunct). -/
theorem c1_speculative_eviction_safety :
    (∀ (ops : MergeQueueOps) (w : List QueueEntry) (k : Nat) (x : QueueEntry),
      ops.fetchMain.ok = true →
      (∀ t d, (ops.rebase t d).ok = true) →
      (∀ rv, ops.review = some rv →
        ∀ y ∈ w, (rv y.ticket.ticketId).approved = true) →
      w.get? k = some x →
      (ops.runCi x.ticket.ticketId).passed = false →
      (∀ j y, j < k → w.get? j = some y →
        (ops.runCi y.ticket.ticketId).passed = true) →
      EvictionSafety ops w k x "ci_failed" (ops.runCi x.ticket.ticketId).details) ∧
    (∀ (ops : MergeQueueOps) (rv : String → ReviewOutcome) (w : List QueueEntry)
        (k : Nat) (x : QueueEntry),
      ops.fetchMain.ok = true →
      (∀ t d, (ops.rebase t d).ok = true) →
      ops.review = some rv →
      w.get? k = some x →
      (rv x.ticket.ticketId).approved = false →
      (∀ j y, j < k → w.get? j = some y →
        (rv y.ticket.ticketId).approved = true) →
      EvictionSafety ops w k x "review_failed" (rv x.ticket.ticketId).reason) := by
  constructor
  · intro ops w k x hfetch hreb hrevall hx hfail hpre
    rcases List.get?_eq_some.mp hx with ⟨hk, -⟩
    have hci := ciPhase_fail ops w k x hx hfail hpre
    have h1 : (ciPhase ops w).1 =
        (landPrefix ops (w.take k)).1 ++
          (evictEntry ops x "ci_failed" (ops.runCi x.ticket.ticketId).details).1 ::
            (w.drop (k + 1)).map bumpInvalidated := by
      rw [hci]
    have h2 : (ciPhase ops w).2 =
        w.map (fun e => MqOp.ciOp e.ticket.ticketId) ++
          ((landPrefix ops (w.take k)).2 ++ evictTrace x) := by
      rw [hci]
    cases hrevc : ops.review with
    | none =>
        have hpr := processRound_ci ops w hfetch hreb hrevc
        refine evictionSafety_of_shape ops w k x _ _ hk ?_
          (MqOp.fetchOp :: (rebaseTraceOf w "main" ++
            w.map (fun e => MqOp.ciOp e.ticket.ticketId))) ?_ ?_ ?_
        · rw [hpr]
          exact h1
        · rw [hpr]
          show MqOp.fetchOp :: (rebaseTraceOf w "main" ++ (ciPhase ops w).2) = _
          rw [h2]
          simp [List.append_assoc]
        · intro t hmem
          simp only [List.mem_cons, List.mem_append, List.mem_map] at hmem
          rcases hmem with h | h | ⟨e, -, h⟩
          · exact MqOp.noConfusion h
          · rcases rebaseTraceOf_shape w "main" _ h with ⟨t', d', h'⟩
            exact MqOp.noConfusion h'
          · exact MqOp.noConfusion h
        · intro hmem
          simp only [List.mem_cons, List.mem_append, List.mem_map] at hmem
          rcases hmem with h | h | ⟨e, -, h⟩
          · exact MqOp.noConfusion h
          · rcases rebaseTraceOf_shape w "main" _ h with ⟨t', d', h'⟩
            exact MqOp.noConfusion h'
          · exact MqOp.noConfusion h
    | some rv =>
        have hpr := processRound_review_ok ops rv w hfetch hreb hrevc
          (hrevall rv hrevc)
        refine evictionSafety_of_shape ops w k x _ _ hk ?_
          (MqOp.fetchOp :: (rebaseTraceOf w "main" ++
            (w.map (fun e => MqOp.reviewOp e.ticket.ticketId) ++
              w.map (fun e => MqOp.ciOp e.ticket.ticketId)))) ?_ ?_ ?_
        · rw [hpr]
          exact h1
        · rw [hpr]
          show MqOp.fetchOp :: (rebaseTraceOf w "main" ++
            (w.map (fun e => MqOp.reviewOp e.ticket.ticketId) ++
              (ciPhase ops w).2)) = _
          rw [h2]
          simp [List.append_assoc]
        · intro t hmem
          simp only [List.mem_cons, List.mem_append, List.mem_map] at hmem
          rcases hmem with h | h | ⟨e, -, h⟩ | ⟨e, -, h⟩
          · exact MqOp.noConfusion h
          · rcases rebaseTraceOf_shape w "main" _ h with ⟨t', d', h'⟩
            exact MqOp.noConfusion h'
          · exact MqOp.noConfusion h
          · exact MqOp.noConfusion h
        · intro hmem
          simp only [List.mem_cons, List.mem_append, List.mem_map] at hmem
          rcases hmem with h | h | ⟨e, -, h⟩ | ⟨e, -, h⟩
          · exact MqOp.noConfusion h
          · rcases rebaseTraceOf_shape w "main" _ h with ⟨t', d', h'⟩
            exact MqOp.noConfusion h'
          · exact MqOp.noConfusion h
          · exact MqOp.noConfusion h
  · intro ops rv w k x hfetch hreb hrev hx hfail hpre
    rcases List.get?_eq_some.mp hx with ⟨hk, -⟩
    have hpr := processRound_review_fail ops rv w k x hfetch hreb hrev hx hfail hpre
    refine evictionSafety_of_shape ops w k x _ _ hk ?_
      (MqOp.fetchOp :: (rebaseTraceOf w "main" ++
        w.map (fun e => MqOp.reviewOp e.ticket.ticketId))) ?_ ?_ ?_
    · rw [hpr]
    · rw [hpr]
      simp [List.append_assoc]
    · intro t hmem
      simp only [List.mem_cons, List.mem_append, List.mem_map] at hmem
      rcases hmem with h | h | ⟨e, -, h⟩
      · exact MqOp.noConfusion h
      · rcases rebaseTraceOf_shape w "main" _ h with ⟨t', d', h'⟩
        exact MqOp.noConfusion h'
      · exact MqOp.noConfusion h
    · intro hmem
      simp only [List.mem_cons, List.mem_append, List.mem_map] at hmem
      rcases hmem with h | h | ⟨e, -, h⟩
      · exact MqOp.noConfusion h
      · rcases rebaseTraceOf_shape w "main" _ h with ⟨t', d', h'⟩
        exact MqOp.noConfusion h'
      · exact MqOp.noConfusion h

/-! ## Concrete fixtures for witnesses and counterexamples -/

/-- A concrete pending coordinator entry. -/
def mkEntry (tid : String) (prio : Priority) (iter seq idx : Nat) : QueueEntry :=
  { ticket :=
      { ticketId := tid
        ticketTitle := "t " ++ tid
        ticketCategory := "general"
        priority := prio
        reportIteration := iter
        worktreePath := "/tmp/workflow-wt-" ++ tid }
    status := EntryStatus.pending
    readyForQueue := true
    enqueueSeq := seq
    snapshotIndex := idx
    invalidatedCount := 0
    result := none
    waiters := [] }

def eW1 : QueueEntry := mkEntry "T1" Priority.high 0 0 0
def eW2 : QueueEntry := mkEntry "T2" Priority.high 0 1 1
def eW3 : QueueEntry := mkEntry "T3" Priority.high 0 2 2

/-- Ops fixture for the case the C1 claim quantifies over with a review gate
present: a post-rebase review agent is configured and approves every entry,
and everything succeeds except the post-land CI of ticket `T2`. -/
def opsW : MergeQueueOps :=
  { fetchMain := { ok := true, details := "" }
    rebase := fun _ _ => { ok := true, details := "" }
    runCi := fun t =>
      if t = "T2" then { passed := false, details := "tests failed" }
      else { passed := true, details := "ok" }
    fastForwardMain := fun _ => { ok := true, details := "" }
    pushMain := { ok := true, details := "" }
    readCommitId := fun _ => some "abc123"
    collectEvictionContext := fun _ =>
      { attemptedLog := some "branch log"
        attemptedDiffSummary := some "diff summary"
        landedOnMainSinceBranch := some "main log" }
    review := some (fun _ => { approved := true, reason := "" }) }

theorem c1_speculative_eviction_safety_witness :
    MqOp.ffOp "T1" ∈ (processRound opsW [eW1, eW2, eW3]).2 ∧
    (processRound opsW [eW1, eW2, eW3]).1.get? 2 =
      some (bumpInvalidated eW3) ∧
    (processRound opsW [eW1, eW2, eW3]).1.get? 0 =
      some (landEntry opsW eW1) ∧
    (∃ e2, (processRound opsW [eW1, eW2, eW3]).1.get? 1 = some e2 ∧
      e2.status = EntryStatus.resolved ∧
      e2.result.map (·.evicted) = some true ∧
      e2.result.map (·.evictionReason) = some (some "ci_failed") ∧
      e2.result.map (·.attemptedLog) = some (some "branch log")) := by
  have hpre : ∀ j y, j < 1 → ([eW1, eW2, eW3] : List QueueEntry).get? j = some y →
      (opsW.runCi y.ticket.ticketId).passed = true := by
    intro j y hj hy
    have hj0 : j = 0 := by omega
    subst hj0
    simp only [List.get?] at hy
    injection hy with hy
    subst hy
    decide
  have hrevall : ∀ rv, opsW.review = some rv →
      ∀ y ∈ ([eW1, eW2, eW3] : List QueueEntry),
        (rv y.ticket.ticketId).approved = true := by
    intro rv hrv y hy
    have hrv2 : (fun _ : String =>
        ({ approved := true, reason := "" } : ReviewOutcome)) = rv :=
      Option.some.inj hrv
    rw [← hrv2]
  have h := c1_speculative_eviction_safety.1 opsW [eW1, eW2, eW3] 1 eW2
    rfl (fun _ _ => rfl) hrevall rfl (by decide) hpre
  refine ⟨?_, ?_, ?_, ?_⟩
  · exact h.1 eW1 (by omega) rfl
  · have h4 := h.2.2.2.1 2 (by omega)
    exact h4
  · exact h.2.2.2.2 eW1 (by omega) rfl rfl rfl 0 eW1 (by omega) rfl
  · rcases h.2.2.1 with ⟨e2, he2, hst, hres, hev, hreason, hlog, -, -⟩
    refine ⟨e2, he2, hst, ?_, ?_, ?_⟩
    · rw [hres, Option.map_some', hev]
    · rw [hres, Option.map_some', hreason]
    · rw [hres, Option.map_some', hlog]
      decide

/-- **C5** (§4.12 state machine): a coordinator entry moves only from
`pending` to `resolved`: `resolveEntry` marks the entry resolved with its
outcome recorded, empties the waiter list, and delivers exactly one outcome —
the recorded one — to each registered waiter (resolving the already-resolved
entry again delivers nothing); and re-submitting the same ticket at a
strictly higher report iteration (`upsertEntry` on the existing entry)
returns the entry to `pending` with its result, invalidation counter and
waiter list cleared and its readiness recomputed from the new submission, so
it is processed again. -/
theorem c5_entry_state_machine :
    (∀ (e : QueueEntry) (r r2 : MergeQueueLandResult),
      (resolveEntry e r).1.status = EntryStatus.resolved ∧
      (resolveEntry e r).1.result = some r ∧
      (resolveEntry e r).1.waiters = [] ∧
      (∀ w, ((resolveEntry e r).2.filter (fun p => p.1 == w)).length =
        (e.waiters.filter (fun x => x == w)).length) ∧
      (∀ p ∈ (resolveEntry e r).2, p.2 = r) ∧
      (resolveEntry (resolveEntry e r).1 r2).2 = []) ∧
    (∀ (ex : QueueEntry) (counter : Nat) (t : MergeQueueTicket)
        (idx : Nat) (rdy : Bool),
      t.reportIteration > ex.ticket.reportIteration →
      (upsertEntry (some ex) counter t idx rdy).1.status = EntryStatus.pending ∧
      (upsertEntry (some ex) counter t idx rdy).1.result = none ∧
      (upsertEntry (some ex) counter t idx rdy).1.invalidatedCount = 0 ∧
      (upsertEntry (some ex) counter t idx rdy).1.waiters = [] ∧
      (upsertEntry (some ex) counter t idx rdy).1.ticket = t ∧
      (upsertEntry (some ex) counter t idx rdy).1.enqueueSeq = counter ∧
      (upsertEntry (some ex) counter t idx rdy).1.readyForQueue =
        (ex.readyForQueue || rdy) ∧
      (upsertEntry (some ex) counter t idx rdy).2 = counter + 1) := by
  constructor
  · intro e r r2
    refine ⟨rfl, rfl, rfl, ?_, ?_, rfl⟩
    · intro w
      show ((e.waiters.map (fun x => (x, r))).filter
        (fun p => p.1 == w)).length = _
      rw [List.filter_map]
      rw [List.length_map]
      rfl
    · intro p hp
      simp only [resolveEntry, List.mem_map] at hp
      rcases hp with ⟨x, -, hx⟩
      rw [← hx]
  · intro ex counter t idx rdy h
    have hif : (t.reportIteration > ex.ticket.reportIteration) = True := by
      simp [h]
    simp [upsertEntry, hif]

/-- An already-resolved fixture entry (waiter `7` registered before
resolution, readiness cleared by `resolveEntry`) and the higher-iteration
resubmission of its ticket. -/
def exW : QueueEntry :=
  { mkEntry "T9" Priority.medium 1 3 0 with
      status := EntryStatus.resolved
      readyForQueue := false
      invalidatedCount := 2
      waiters := [7] }

def tW : MergeQueueTicket :=
  { ticketId := "T9"
    ticketTitle := "t T9"
    ticketCategory := "general"
    priority := Priority.medium
    reportIteration := 2
    worktreePath := "/tmp/workflow-wt-T9" }

theorem c5_entry_state_machine_witness :
    (upsertEntry (some exW) 5 tW 0 true).1.status = EntryStatus.pending ∧
    (upsertEntry (some exW) 5 tW 0 true).1.result = none ∧
    (upsertEntry (some exW) 5 tW 0 true).1.invalidatedCount = 0 ∧
    (upsertEntry (some exW) 5 tW 0 true).1.waiters = [] ∧
    (upsertEntry (some exW) 5 tW 0 true).1.readyForQueue = true := by
  have h := c5_entry_state_machine.2 exW 5 tW 0 true (by decide)
  refine ⟨h.1, h.2.1, h.2.2.1, h.2.2.2.1, ?_⟩
  rw [h.2.2.2.2.2.2.1]
  decide

/-- Ops fixture for the push-failure scenario: fast-forward succeeds, the
push of `main` fails. -/
def opsP : MergeQueueOps :=
  { fetchMain := { ok := true, details := "" }
    rebase := fun _ _ => { ok := true, details := "" }
    runCi := fun _ => { passed := true, details := "ok" }
    fastForwardMain := fun _ => { ok := true, details := "" }
    pushMain := { ok := false, details := "main moved" }
    readCommitId := fun _ => some "abc123"
    collectEvictionContext := fun _ =>
      { attemptedLog := some "branch log"
        attemptedDiffSummary := some "diff summary"
        landedOnMainSinceBranch := some "main log" }
    review := none }

/-- **C6** counterexample: the claim says a failed push of the fast-forwarded
mainline is retried up to three times with a re-fetch before the affected
window entries are evicted. On the concrete window `[eW1]` with a failing
push, `landPrefix` issues exactly one push and no fetch at all, and the entry
is already resolved as evicted with reason `push_failed` — there is no retry
and no re-fetch before eviction. -/
theorem c6_push_retry_counterexample :
    (landPrefix opsP [eW1]).2 =
      [MqOp.ffOp "T1", MqOp.pushOp, MqOp.collectCtxOp "T1", MqOp.cleanupOp "T1"] ∧
    (landPrefix opsP [eW1]).2.count MqOp.pushOp = 1 ∧
    MqOp.fetchOp ∉ (landPrefix opsP [eW1]).2 ∧
    ((landPrefix opsP [eW1]).1.map
      (fun e => (e.status, e.result.map (fun r => (r.evicted, r.evictionReason))))) =
      [(EntryStatus.resolved, some (true, some "push_failed"))] := by
  refine ⟨rfl, rfl, by decide, rfl⟩

/-- **C6** amended: when pushing the fast-forwarded mainline fails, the
speculative coordinator's `landPrefix` does not retry: it issues exactly one
push and no fetch, and immediately evicts every affected window entry with
reason `push_failed` (the retry-three-times-with-re-fetch behaviour exists
only as natural-language instruction in the agent-facing merge-queue prompt,
not in the coordinator). -/
theorem c6_push_failure_no_retry :
    ∀ (ops : MergeQueueOps) (es : List QueueEntry) (tail : QueueEntry),
      es.getLast? = some tail →
      (ops.fastForwardMain tail.ticket.ticketId).ok = true →
      ops.pushMain.ok = false →
      (landPrefix ops es).2.count MqOp.pushOp = 1 ∧
      MqOp.fetchOp ∉ (landPrefix ops es).2 ∧
      ∀ e ∈ (landPrefix ops es).1,
        e.status = EntryStatus.resolved ∧
        e.result.map (fun r => r.evicted) = some true ∧
        e.result.map (fun r => r.evictionReason) = some (some "push_failed") := by
  intro ops es tail htail hff hpush
  rw [landPrefix_pushFail ops es tail htail hff hpush]
  refine ⟨?_, ?_, ?_⟩
  · simp only [List.count_cons]
    have h0 : (es.flatMap evictTrace).count MqOp.pushOp = 0 := by
      rw [List.count_eq_zero]
      intro hmem
      rcases List.mem_flatMap.mp hmem with ⟨e, -, he⟩
      simp [evictTrace] at he
    rw [h0]
    rfl
  · intro hmem
    simp only [List.mem_cons] at hmem
    rcases hmem with h | h | h
    · exact MqOp.noConfusion h
    · exact MqOp.noConfusion h
    · rcases List.mem_flatMap.mp h with ⟨e, -, he⟩
      simp [evictTrace] at he
  · intro e hmem
    rcases List.mem_map.mp hmem with ⟨e0, -, he⟩
    subst he
    refine ⟨rfl, rfl, rfl⟩

theorem c6_push_failure_no_retry_witness :
    (landPrefix opsP [eW1]).2.count MqOp.pushOp = 1 ∧
    MqOp.fetchOp ∉ (landPrefix opsP [eW1]).2 := by
  have h := c6_push_failure_no_retry opsP [eW1] eW1 rfl rfl rfl
  exact ⟨h.1, h.2.1⟩

/-- Two equal-priority fixture entries: `eA` was enqueued first (sequence 0)
but carries the higher report iteration 5; `eB` was enqueued second
(sequence 1) at report iteration 3. -/
def eA : QueueEntry := mkEntry "T-A" Priority.high 5 0 0

def eB : QueueEntry := mkEntry "T-B" Priority.high 3 1 1

/-- **C7** counterexample: the claim says ties between entries of equal
priority are broken on enqueue sequence. Under the `priority` strategy the
ordered pending entries place `eB` (enqueued second) before `eA` (enqueued
first) although both have priority `high`, because the comparator orders by
report iteration before the enqueue sequence. -/
theorem c7_priority_tiebreak_counterexample :
    getOrderedPendingEntries MergeQueueOrderingStrategy.priority [eA, eB] =
      [eB, eA] ∧
    eA.ticket.priority = eB.ticket.priority ∧
    eA.enqueueSeq < eB.enqueueSeq := by
  refine ⟨rfl, rfl, by decide⟩

/-- **C7** amended: under the `priority` ordering policy, the pending, ready
merge-queue entries are a permutation of the pending-ready filter, sorted by
the comparator critical > high > medium > low, with ties between entries of
equal priority broken first on report iteration and only then on enqueue
sequence. -/
theorem c7_priority_ordering :
    ∀ entries : List QueueEntry,
      (getOrderedPendingEntries MergeQueueOrderingStrategy.priority
          entries).Pairwise (fun a b => priorityCmpLE a b = true) ∧
      List.Perm
        (getOrderedPendingEntries MergeQueueOrderingStrategy.priority entries)
        (entries.filter
          (fun e => decide (e.status = EntryStatus.pending) && e.readyForQueue)) := by
  intro entries
  constructor
  · exact pairwise_insertionSortBy priorityCmpLE priorityCmpLE_total
      priorityCmpLE_trans _
  · exact insertionSortBy_perm priorityCmpLE _

/-- **C8** (§4.12 eviction context): every entry evicted by the speculative
coordinator, whatever the eviction reason, resolves with a structured result
that is marked evicted, records the reason and (truncated, defaulted)
details, and carries all three eviction artifacts collected for the ticket —
the commit log of the branch that failed to land (`attemptedLog`), the
summary diff of the attempted change (`attemptedDiffSummary`), and the log of
commits landed on mainline since the branch point
(`landedOnMainSinceBranch`); the eviction also issues the context-collection
operation for the ticket. (`collectDefaultEvictionContext` is the embedded
collector that produces the three artifacts from the three jj queries.) -/
theorem c8_eviction_artifacts :
    ∀ (ops : MergeQueueOps) (e : QueueEntry) (reason details : String),
      (evictEntry ops e reason details).1.status = EntryStatus.resolved ∧
      (evictEntry ops e reason details).1.result =
        some (evictionResult ops e reason details) ∧
      (evictionResult ops e reason details).merged = false ∧
      (evictionResult ops e reason details).evicted = true ∧
      (evictionResult ops e reason details).evictionReason = some reason ∧
      (evictionResult ops e reason details).evictionDetails =
        some (truncate (if details = "" then "No additional details." else details)) ∧
      (evictionResult ops e reason details).attemptedLog =
        (ops.collectEvictionContext e.ticket.ticketId).attemptedLog ∧
      (evictionResult ops e reason details).attemptedDiffSummary =
        (ops.collectEvictionContext e.ticket.ticketId).attemptedDiffSummary ∧
      (evictionResult ops e reason details).landedOnMainSinceBranch =
        (ops.collectEvictionContext e.ticket.ticketId).landedOnMainSinceBranch ∧
      MqOp.collectCtxOp e.ticket.ticketId ∈ (evictEntry ops e reason details).2 := by
  intro ops e reason details
  refine ⟨rfl, rfl, rfl, rfl, rfl, rfl, rfl, rfl, rfl, ?_⟩
  simp [evictEntry, evictTrace]

/-- The raw-field accessors of a candidate used to state C9. -/
def rawPriorityField : RawCandidate → RawField
  | .notObject => .absent
  | .obj _ _ _ _ p _ _ _ _ => p

def rawTierField : RawCandidate → RawField
  | .notObject => .absent
  | .obj _ _ _ _ _ c _ _ _ => c

/-- **C9**: `normalizeTicket` drops a candidate exactly when its trimmed id is
not a nonempty string (which covers non-object candidates); an accepted
candidate's priority and complexity tier are taken through the normalizers,
and any priority outside `critical/high/medium/low` — or any tier outside
`trivial/small/medium/large` — is coerced to `medium` rather than causing
rejection. -/
theorem c9_ticket_normalization :
    (∀ c : RawCandidate,
      ((normalizeTicket c).isNone ↔ rawIdTrim c = "") ∧
      (∀ t, normalizeTicket c = some t →
        t.id = rawIdTrim c ∧
        t.priority = normalizePriority (rawPriorityField c) ∧
        t.complexityTier = normalizeComplexityTier (rawTierField c))) ∧
    (∀ v : RawField,
      (∀ s, v = RawField.str s →
        s ≠ "critical" ∧ s ≠ "high" ∧ s ≠ "medium" ∧ s ≠ "low") →
      normalizePriority v = Priority.medium) ∧
    (∀ v : RawField,
      (∀ s, v = RawField.str s →
        s ≠ "trivial" ∧ s ≠ "small" ∧ s ≠ "medium" ∧ s ≠ "large") →
      normalizeComplexityTier v = ComplexityTier.medium) := by
  refine ⟨?_, ?_, ?_⟩
  · intro c
    cases c with
    | notObject => simp [normalizeTicket, rawIdTrim]
    | obj id title description category priority complexityTier ac rf rfl2 =>
        constructor
        · cases id with
          | str s =>
              by_cases h : jsTrim s = "" <;>
                simp [normalizeTicket, rawIdTrim, h]
          | absent => simp [normalizeTicket, rawIdTrim]
          | list xs => simp [normalizeTicket, rawIdTrim]
          | other => simp [normalizeTicket, rawIdTrim]
        · intro t ht
          cases id with
          | str s =>
              by_cases h : jsTrim s = ""
              · simp [normalizeTicket, h] at ht
              · simp only [normalizeTicket, h, if_neg, ite_false] at ht
                injection ht with ht
                subst ht
                exact ⟨rfl, rfl, rfl⟩
          | absent => simp [normalizeTicket] at ht
          | list xs => simp [normalizeTicket] at ht
          | other => simp [normalizeTicket] at ht
  · intro v hv
    cases v with
    | str s =>
        rcases hv s rfl with ⟨h1, h2, h3, h4⟩
        simp [normalizePriority, h1, h2, h3, h4]
    | absent => rfl
    | list xs => rfl
    | other => rfl
  · intro v hv
    cases v with
    | str s =>
        rcases hv s rfl with ⟨h1, h2, h3, h4⟩
        simp [normalizeComplexityTier, h1, h2, h3, h4]
    | absent => rfl
    | list xs => rfl
    | other => rfl

/-- A concrete candidate: valid id (after trimming), a priority value outside
the enumeration, and a non-string complexity tier. -/
def cand9 : RawCandidate :=
  RawCandidate.obj (RawField.str "  T-7 ") (RawField.str "Title")
    (RawField.str "desc") (RawField.str "api") (RawField.str "urgent")
    RawField.other RawField.absent RawField.absent RawField.absent

theorem c9_ticket_normalization_witness :
    normalizePriority (RawField.str "urgent") = Priority.medium ∧
    normalizeComplexityTier RawField.other = ComplexityTier.medium ∧
    ((normalizeTicket cand9).isNone ↔ rawIdTrim cand9 = "") ∧
    (normalizeTicket cand9).map (fun t => (t.id, t.priority, t.complexityTier)) =
      some ("T-7", Priority.medium, ComplexityTier.medium) := by
  refine ⟨?_, ?_, (c9_ticket_normalization.1 cand9).1, ?_⟩
  · refine c9_ticket_normalization.2.1 (RawField.str "urgent") ?_
    intro s hs
    injection hs with hs
    subst hs
    refine ⟨by decide, by decide, by decide, by decide⟩
  · refine c9_ticket_normalization.2.2 RawField.other ?_
    intro s hs
    exact RawField.noConfusion hs
  · have h := (c9_ticket_normalization.1 cand9).2
    cases hc : normalizeTicket cand9 with
    | none =>
        have hnone : (normalizeTicket cand9).isNone = true := by
          rw [hc]
          rfl
        have := ((c9_ticket_normalization.1 cand9).1).mp hnone
        exact absurd this (by decide)
    | some t =>
        have ht := h t hc
        rw [Option.map_some', ht.1, ht.2.1, ht.2.2]
        decide

/-- Context fixture for C4: an `implement` output row exists for the job's
node id, but only at iteration 0, while the current frame iteration is 1. -/
def ctxC4 : Ctx :=
  { rows :=
      [{ schemaKey := "implement"
         nodeId := "T-1:implement"
         iteration := 0
         payload := Payload.plain }]
    currentIteration := 1 }

/-- A one-shot per-ticket stage job. -/
def jobC4 : ScheduledJob :=
  { jobId := "T-1:implement"
    jobType := "ticket:implement"
    agentId := "coder"
    ticketId := some "T-1"
    createdAtMs := 0 }

/-- **C4** counterexample: the claim says one-shot per-ticket stage jobs use a
cross-iteration (latest) lookup for their completion check. For the job
`T-1:implement` whose output exists only at iteration 0, with the frame at
iteration 1, the cross-iteration lookup finds the row, yet `isJobComplete`
returns `false` — the completion check is iteration-scoped for per-ticket
stage jobs too. -/
theorem c4_lookup_counterexample :
    isJobComplete ctxC4 jobC4 = false ∧
    (latestRow ctxC4 "implement" "T-1:implement").isSome = true ∧
    JOB_TYPE_TO_OUTPUT_KEY jobC4.jobType = some "implement" := by
  decide

/-- **C4** amended: the completion check that drives reaping and
insert-if-absent reconciliation uses the iteration-scoped lookup uniformly
for every job type — the repeating `discovery` / `progress-update` jobs (so
they can be re-scheduled in later loop iterations) and one-shot per-ticket
stage jobs alike: `isJobComplete` holds exactly when a row of the job type's
output table exists for the job id at the current frame's iteration. -/
theorem c4_completion_check_iteration_scoped :
    ∀ (ctx : Ctx) (job : ScheduledJob),
      isJobComplete ctx job = true ↔
        ∃ key, JOB_TYPE_TO_OUTPUT_KEY job.jobType = some key ∧
          ∃ r ∈ ctx.rows, r.schemaKey = key ∧ r.nodeId = job.jobId ∧
            r.iteration = ctx.currentIteration := by
  intro ctx job
  cases hk : JOB_TYPE_TO_OUTPUT_KEY job.jobType with
  | none =>
      simp only [isJobComplete, hk]
      simp
  | some key =>
      simp only [isJobComplete, hk]
      rw [outputMaybeRow_isSome_iff]
      constructor
      · intro h
        exact ⟨key, rfl, h⟩
      · rintro ⟨k2, hk2, h⟩
        injection hk2 with hk2
        subst hk2
        exact h

/-- C3 fixture: an earlier `merge_queue_result` row evicting `T-1`. -/
def rowE : OutputRow :=
  { schemaKey := "merge_queue_result"
    nodeId := "agentic-merge-queue"
    iteration := 0
    payload := Payload.mq
      { ticketsLanded := []
        ticketsEvicted :=
          [{ ticketId := "T-1"
             reason := "rebase_conflict"
             details := "conflict in src/a.ts" }] } }

/-- C3 fixture: a later `merge_queue_result` row landing `T-1`. -/
def rowL : OutputRow :=
  { schemaKey := "merge_queue_result"
    nodeId := "agentic-merge-queue"
    iteration := 1
    payload := Payload.mq
      { ticketsLanded :=
          [{ ticketId := "T-1"
             mergeCommit := some "c1"
             summary := "landed" }]
        ticketsEvicted := [] } }

def ctx3 : Ctx := { rows := [rowE, rowL], currentIteration := 1 }

/-- The landing state `selectLand` synthesizes from `rowE`'s evicted entry. -/
def evictedSel3 : LandSel :=
  { merged := false
    mergeCommit := none
    ciPassed := false
    summary := "rebase_conflict"
    evicted := true
    evictionReason := some "rebase_conflict"
    evictionDetails := some "conflict in src/a.ts"
    attemptedLog := none
    attemptedDiffSummary := none
    landedOnMainSinceBranch := none }

/-- **C3** counterexample: the claim says that with no `land` row the landing
state is determined by the latest matching `merge_queue_result` entry. In
`ctx3` the ticket has no `land` row and the latest matching entry (`rowL`,
iteration 1) records it as landed (`merged = true`), yet `selectLand` returns
the state of the earlier entry (`rowE`, iteration 0): evicted,
`merged = false` — the scan returns the first matching row, not the latest. -/
theorem c3_latest_entry_counterexample :
    latestRow ctx3 "land" "T-1:land" = none ∧
    selectLand ctx3 "T-1" = some evictedSel3 ∧
    evictedSel3.merged = false ∧
    evictedSel3.evicted = true ∧
    rowE ∈ ctx3.rows ∧ rowL ∈ ctx3.rows ∧
    rowE.iteration < rowL.iteration ∧
    (mqEntryFor "T-1" rowL).map (fun l => l.merged) = some true := by
  decide

/-- **C3** amended: the landing state is determined by the latest `land` row
for the ticket when one exists; when none exists it is determined by the
*first* matching entry for the ticket in the iteration-ascending scan of the
`merge_queue_result` rows (the earliest matching entry, not the latest). -/
theorem c3_landing_state_selection :
    (∀ (ctx : Ctx) (tid : String) (row : OutputRow) (l : LandSel),
      latestRow ctx "land" (tid ++ ":land") = some row →
      row.payload = Payload.land l →
      selectLand ctx tid = some l ∧
      row ∈ ctx.rows ∧
      ∀ x ∈ ctx.rows, x.schemaKey = "land" → x.nodeId = tid ++ ":land" →
        x.iteration ≤ row.iteration) ∧
    (∀ (ctx : Ctx) (tid : String) (pre post : List OutputRow) (r : OutputRow)
        (v : LandSel),
      latestRow ctx "land" (tid ++ ":land") = none →
      outputsAsc ctx "merge_queue_result" = pre ++ r :: post →
      (∀ x ∈ pre, mqEntryFor tid x = none) →
      mqEntryFor tid r = some v →
      selectLand ctx tid = some v) := by
  constructor
  · intro ctx tid row l hlat hpay
    have hspec := latestRow_spec ctx "land" (tid ++ ":land") row hlat
    refine ⟨?_, hspec.1, fun x hx h1 h2 => hspec.2.2.2 x hx h1 h2⟩
    rw [selectLand, hlat]
    show (match row.payload with
      | Payload.land l => some l
      | _ => none) = some l
    rw [hpay]
  · intro ctx tid pre post r v hnone hasc hpre hr
    rw [selectLand, hnone, hasc]
    exact scanMq_append tid pre r post v hpre hr

/-- C3 witness fixture: a direct `land` row for `T-9`. -/
def landSel3 : LandSel :=
  { merged := true
    mergeCommit := some "m1"
    ciPassed := true
    summary := "landed"
    evicted := false
    evictionReason := none
    evictionDetails := none
    attemptedLog := none
    attemptedDiffSummary := none
    landedOnMainSinceBranch := none }

def row3 : OutputRow :=
  { schemaKey := "land"
    nodeId := "T-9:land"
    iteration := 2
    payload := Payload.land landSel3 }

def ctx3w : Ctx := { rows := [row3], currentIteration := 2 }

theorem c3_landing_state_selection_witness :
    selectLand ctx3w "T-9" = some landSel3 ∧
    selectLand ctx3 "T-1" = some evictedSel3 := by
  constructor
  · exact (c3_landing_state_selection.1 ctx3w "T-9" row3 landSel3
      (by decide) rfl).1
  · exact c3_landing_state_selection.2 ctx3 "T-1" [] [rowL] rowE evictedSel3
      (by decide) (by decide) (by intro x hx; simp at hx) (by decide)

theorem tierCompleteFor_implies_isTicketTierComplete (ctx : Ctx) (t : Ticket)
    (h : tierCompleteFor ctx t = true) :
    isTicketTierComplete ctx t.id t.complexityTier = true := by
  rw [tierCompleteFor] at h
  split at h
  · exact absurd h (by simp)
  · exact h

theorem isTicketTierComplete_row (ctx : Ctx) (tid : String)
    (tier : ComplexityTier) (h : isTicketTierComplete ctx tid tier = true) :
    ∃ out nid, stageToCheck tid (getTierFinalStage tier) = some (out, nid) ∧
      ∃ r ∈ ctx.rows, r.schemaKey = out ∧ r.nodeId = nid := by
  rw [isTicketTierComplete] at h
  cases hstc : stageToCheck tid (getTierFinalStage tier) with
  | none =>
      rw [hstc] at h
      exact absurd h (by simp)
  | some p =>
      obtain ⟨out, nid⟩ := p
      rw [hstc] at h
      rcases (latestRow_isSome_iff ctx out nid).mp h with ⟨r, hr, h1, h2⟩
      exact ⟨out, nid, rfl, r, hr, h1, h2⟩

/-- **C2** (invariant: tier-completion precedes landing, candidate
selection): every ticket offered to the merge queue by `SuperRalph`'s
candidate computation satisfies, at the context the selection was made from:
its tier-completion predicate holds — in particular an output row exists for
the schema of its tier's final stage under node id `{ticketId}:{finalStage}`
— and its landing state is not `merged`. The agentic merge queue's own
`readyTickets` filter keeps every such candidate (it filters on the same two
flags), so tickets that are not tier-complete or already landed are never
offered. -/
theorem c2_merge_queue_candidates :
    (∀ (ctx : Ctx) (ts : List Ticket) (m : AgenticMergeQueueTicket),
      m ∈ mergeQueueTicketsOf ctx ts →
      ∃ t ∈ ts, t.id = m.ticketId ∧
        tierCompleteFor ctx t = true ∧
        landedFor ctx t.id = false ∧
        isTicketTierComplete ctx t.id t.complexityTier = true ∧
        ∃ out nid, stageToCheck t.id (getTierFinalStage t.complexityTier) =
            some (out, nid) ∧
          ∃ r ∈ ctx.rows, r.schemaKey = out ∧ r.nodeId = nid) ∧
    (∀ (ctx : Ctx) (ts : List Ticket),
      readyTicketsFilter (mergeQueueTicketsOf ctx ts) =
        mergeQueueTicketsOf ctx ts) := by
  have hmain : ∀ (ctx : Ctx) (ts : List Ticket) (m : AgenticMergeQueueTicket),
      m ∈ mergeQueueTicketsOf ctx ts →
      ∃ t ∈ ts, t.id = m.ticketId ∧ tierCompleteFor ctx t = true ∧
        landedFor ctx t.id = false ∧ m.reportComplete = true ∧
        m.landed = false := by
    intro ctx ts m hm
    rcases List.mem_map.mp hm with ⟨st, hst, hm2⟩
    rcases List.mem_filter.mp hst with ⟨hst2, hcond⟩
    rcases List.mem_map.mp hst2 with ⟨t, hts, hteq⟩
    rw [Bool.and_eq_true, Bool.not_eq_true'] at hcond
    subst hteq
    subst hm2
    exact ⟨t, hts, rfl, hcond.1, hcond.2, hcond.1, hcond.2⟩
  constructor
  · intro ctx ts m hm
    rcases hmain ctx ts m hm with ⟨t, hts, hid, htc, hld, -, -⟩
    have httc := tierCompleteFor_implies_isTicketTierComplete ctx t htc
    exact ⟨t, hts, hid, htc, hld, httc,
      isTicketTierComplete_row ctx t.id t.complexityTier httc⟩
  · intro ctx ts
    rw [readyTicketsFilter, List.filter_eq_self]
    intro m hm
    rcases hmain ctx ts m hm with ⟨t, -, -, -, -, hrc, hld⟩
    simp [hrc, hld]

/-- C2 witness fixtures: a trivial-tier ticket whose final stage
(`build-verify`) has an output row, and no landing state at all. -/
def t2 : Ticket :=
  { id := "T-1"
    title := "Ticket one"
    description := ""
    category := "general"
    priority := Priority.high
    complexityTier := ComplexityTier.trivial
    acceptanceCriteria := none
    relevantFiles := none
    referenceFiles := none }

def ctx2 : Ctx :=
  { rows :=
      [{ schemaKey := "build_verify"
         nodeId := "T-1:build-verify"
         iteration := 0
         payload := Payload.plain }]
    currentIteration := 0 }

/-- The candidate `SuperRalph` builds from `t2` in `ctx2`. -/
def m2 : AgenticMergeQueueTicket :=
  { ticketId := "T-1"
    ticketTitle := "Ticket one"
    ticketCategory := "general"
    priority := Priority.high
    reportComplete := true
    landed := false
    filesModified := []
    filesCreated := []
    worktreePath := "/tmp/workflow-wt-T-1" }

theorem c2_merge_queue_candidates_witness :
    mergeQueueTicketsOf ctx2 [t2] = [m2] ∧
    (∃ t ∈ [t2], t.id = m2.ticketId ∧
      tierCompleteFor ctx2 t = true ∧
      landedFor ctx2 t.id = false ∧
      isTicketTierComplete ctx2 t.id t.complexityTier = true ∧
      ∃ out nid, stageToCheck t.id (getTierFinalStage t.complexityTier) =
          some (out, nid) ∧
        ∃ r ∈ ctx2.rows, r.schemaKey = out ∧ r.nodeId = nid) ∧
    readyTicketsFilter (mergeQueueTicketsOf ctx2 [t2]) =
      mergeQueueTicketsOf ctx2 [t2] := by
  refine ⟨by decide, ?_, c2_merge_queue_candidates.2 ctx2 [t2]⟩
  exact c2_merge_queue_candidates.1 ctx2 [t2] m2 (by decide)

/-- **C10** (invariant): a ticket whose landing state (as read by
`selectLand`) shows `evicted = true` and `merged ≠ true` is treated as not
tier-complete — even when an output row for its tier's final stage exists —
and is therefore excluded from the merge-queue candidate set, so an evicted
ticket cannot be re-selected for landing until a newer result changes its
landing state. -/
theorem c10_evicted_blocks_reselection :
    ∀ (ctx : Ctx) (tid : String) (l : LandSel),
      selectLand ctx tid = some l →
      l.evicted = true →
      l.merged = false →
      (∀ t : Ticket, t.id = tid → tierCompleteFor ctx t = false) ∧
      (∀ (ts : List Ticket) (m : AgenticMergeQueueTicket),
        m ∈ mergeQueueTicketsOf ctx ts → m.ticketId ≠ tid) := by
  intro ctx tid l hsel hev hm
  have htc : ∀ t : Ticket, t.id = tid → tierCompleteFor ctx t = false := by
    intro t ht
    rw [tierCompleteFor, ht, hsel]
    simp [hev, hm]
  refine ⟨htc, ?_⟩
  intro ts m hmem heq
  rcases List.mem_map.mp hmem with ⟨st, hst, hm2⟩
  rcases List.mem_filter.mp hst with ⟨hst2, hcond⟩
  rcases List.mem_map.mp hst2 with ⟨t, hts, hteq⟩
  subst hteq
  subst hm2
  rw [Bool.and_eq_true] at hcond
  have h1 : tierCompleteFor ctx t = true := hcond.1
  have h2 : t.id = tid := heq
  rw [htc t h2] at h1
  exact absurd h1 (by simp)

/-- C10 witness fixtures: the ticket's final-stage row exists, but a
`merge_queue_result` entry evicts it. -/
def t10 : Ticket :=
  { id := "T-1"
    title := "Ticket one"
    description := ""
    category := "general"
    priority := Priority.high
    complexityTier := ComplexityTier.trivial
    acceptanceCriteria := none
    relevantFiles := none
    referenceFiles := none }

def ctx10 : Ctx :=
  { rows :=
      [{ schemaKey := "build_verify"
         nodeId := "T-1:build-verify"
         iteration := 0
         payload := Payload.plain },
       { schemaKey := "merge_queue_result"
         nodeId := "agentic-merge-queue"
         iteration := 0
         payload := Payload.mq
           { ticketsLanded := []
             ticketsEvicted :=
               [{ ticketId := "T-1"
                  reason := "ci_failed"
                  details := "post-land checks failed" }] } }]
    currentIteration := 0 }

/-- The landing state `selectLand` reads for `T-1` in `ctx10`. -/
def evictedSel10 : LandSel :=
  { merged := false
    mergeCommit := none
    ciPassed := false
    summary := "ci_failed"
    evicted := true
    evictionReason := some "ci_failed"
    evictionDetails := some "post-land checks failed"
    attemptedLog := none
    attemptedDiffSummary := none
    landedOnMainSinceBranch := none }

theorem c10_evicted_blocks_reselection_witness :
    isTicketTierComplete ctx10 "T-1" ComplexityTier.trivial = true ∧
    tierCompleteFor ctx10 t10 = false ∧
    (∀ m ∈ mergeQueueTicketsOf ctx10 [t10], m.ticketId ≠ "T-1") ∧
    mergeQueueTicketsOf ctx10 [t10] = [] := by
  have hsel : selectLand ctx10 "T-1" = some evictedSel10 := by decide
  have h := c10_evicted_blocks_reselection ctx10 "T-1" evictedSel10 hsel rfl rfl
  exact ⟨by decide, h.1 t10 rfl, fun m hm => h.2 [t10] m hm, by decide⟩
